/-
  Verification of the markdown-ppp document model, parser fragments and
  renderer fragments against their natural-language specification.

  The Rust sources are shallowly embedded: each Lean definition mirrors one
  Rust item (module path given in its doc comment).  Machine strings are
  modelled as `List Char`; Rust's `Vec<T>` as `List T`; fallible parsers as
  an explicit result type distinguishing nom's recoverable `Err::Error`
  from its fatal `Err::Failure`.
-/
import Mathlib

namespace MarkdownPPP

/-! ## The document data model (`src/ast/mod.rs`, reconstructed from its
    uses in `src/ast/convert.rs`, `src/ast_transform/*` and spec §3). -/

/-- `TaskState` of a list item (spec §3: Complete/Incomplete). -/
inductive TaskState where
  | complete
  | incomplete
deriving DecidableEq, Repr

/-- Setext heading levels. -/
inductive SetextHeading where
  | level1
  | level2
deriving DecidableEq, Repr

/-- `HeadingKind`: ATX with level, or Setext. -/
inductive HeadingKind where
  | atx (level : Nat)
  | setext (kind : SetextHeading)
deriving DecidableEq, Repr

/-- Bullet marker class of a bullet list. -/
inductive ListBulletKind where
  | dash
  | plus
  | star
deriving DecidableEq, Repr

/-- `ListKind`: ordered with a start index, or bullet with a marker class. -/
inductive ListKind where
  | ordered (start : Nat)
  | bullet (kind : ListBulletKind)
deriving DecidableEq, Repr

/-- Per-column table alignment. -/
inductive Alignment where
  | left
  | center
  | right
  | none
deriving DecidableEq, Repr

/-- GitHub alert categories. -/
inductive GitHubAlertType where
  | note
  | tip
  | important
  | warning
  | caution
  | custom (name : List Char)
deriving DecidableEq, Repr

/-- `CodeBlockKind`: fenced with an optional info string, or indented. -/
inductive CodeBlockKind where
  | fenced (info : Option (List Char))
  | indented
deriving DecidableEq, Repr

/-- `ImageAttributes` with optional width/height carrying raw unit text. -/
structure ImageAttributes where
  width : Option (List Char)
  height : Option (List Char)
deriving DecidableEq, Repr

/-- `Inline` nodes.  The `Link`, `LinkReference` and `Image` payload structs
    are flattened into constructor arguments with the same field names. -/
inductive Inline where
  | text (content : List Char)
  | lineBreak
  | code (content : List Char)
  | latex (content : List Char)
  | html (content : List Char)
  | link (destination : List Char) (title : Option (List Char))
      (children : List Inline)
  | linkReference (label : List Inline) (text : List Inline)
  | image (destination : List Char) (title : Option (List Char))
      (alt : List Char) (attr : Option ImageAttributes)
  | emphasis (content : List Inline)
  | strong (content : List Inline)
  | strikethrough (content : List Inline)
  | autolink (url : List Char)
  | footnoteReference (label : List Char)
  | empty

/-- `Heading`: kind and inline content. -/
structure Heading where
  kind : HeadingKind
  content : List Inline

/-- `CodeBlock`: kind and raw literal text. -/
structure CodeBlock where
  kind : CodeBlockKind
  literal : List Char
deriving DecidableEq

/-- `LinkDefinition`: raw inline-sequence label, destination, optional
    title. -/
structure LinkDefinition where
  label : List Inline
  destination : List Char
  title : Option (List Char)

/-- `TableCell`: inline content, span information and the
    `removed_by_extended_table` marker (spec §3). -/
structure TableCell where
  content : List Inline
  colspan : Nat
  rowspan : Nat
  removed_by_extended_table : Bool

/-- A table row is a sequence of cells. -/
abbrev TableRow := List TableCell

/-- `Table`: row-major matrix of cells plus per-column alignments. -/
structure Table where
  rows : List TableRow
  alignments : List Alignment

mutual
/-- `Block` nodes.  The `List`, `Container`, `FootnoteDefinition` and
    `GitHubAlert` payload structs are flattened into constructor arguments
    with the same field names (`List` would clash with Lean's `List`). -/
inductive Block where
  | paragraph (content : List Inline)
  | heading (heading : Heading)
  | thematicBreak
  | blockQuote (blocks : List Block)
  | list (kind : ListKind) (items : List ListItem)
  | codeBlock (codeBlock : CodeBlock)
  | htmlBlock (content : List Char)
  | definition (definition : LinkDefinition)
  | table (table : Table)
  | footnoteDefinition (label : List Char) (blocks : List Block)
  | githubAlert (alertType : GitHubAlertType) (blocks : List Block)
  | latexBlock (content : List Char)
  | empty
  | container (kind : List Char) (params : List (List Char × List Char))
      (blocks : List Block)
  | macroBlock (content : List Char)

/-- `ListItem`: optional task state and nested blocks. -/
inductive ListItem where
  | mk (task : Option TaskState) (blocks : List Block)
end

/-- `Document`: ordered sequence of blocks. -/
structure Document where
  blocks : List Block

/-! ## The transformer default walk
    (`src/ast_transform/transformer.rs`).

    The `Transformer` trait gives every `transform_*` hook a default body
    that calls the corresponding `walk_transform_*` method.  The functions
    below embed the walk of a transformer that overrides none of the
    defaults, so every `self.transform_x(...)` call in the Rust source is
    the default walk itself. -/

mutual
/-- `Transformer::walk_transform_inline` with all hooks left at their
    defaults. -/
def walkTransformInline : Inline → Inline
  | .emphasis inlines => .emphasis (transformInlineList inlines)
  | .strong inlines => .strong (transformInlineList inlines)
  | .strikethrough inlines => .strikethrough (transformInlineList inlines)
  | .link destination title children =>
      .link destination title (transformInlineList children)
  | .linkReference label text =>
      .linkReference (transformInlineList label) (transformInlineList text)
  | .image destination title alt attr => .image destination title alt attr
  | .text t => .text t
  | .lineBreak => .lineBreak
  | .code c => .code c
  | .latex c => .latex c
  | .html c => .html c
  | .autolink u => .autolink u
  | .footnoteReference l => .footnoteReference l
  | .empty => .empty

/-- The `inlines.into_iter().map(|inline| self.transform_inline(inline))`
    pattern of the default walks, with `transform_inline` left at its
    default. -/
def transformInlineList : List Inline → List Inline
  | [] => []
  | i :: rest => walkTransformInline i :: transformInlineList rest
end

/-- `Transformer::walk_transform_table_cell` (default hooks). -/
def walkTransformTableCell (cell : TableCell) : TableCell :=
  { cell with content := transformInlineList cell.content }

/-- `Transformer::walk_transform_table_row` (default hooks). -/
def walkTransformTableRow (row : TableRow) : TableRow :=
  row.map walkTransformTableCell

/-- `Transformer::walk_transform_heading` (default hooks). -/
def walkTransformHeading (heading : Heading) : Heading :=
  { heading with content := transformInlineList heading.content }

/-- `Transformer::walk_transform_code_block` (terminal, default hooks). -/
def walkTransformCodeBlock (codeBlock : CodeBlock) : CodeBlock :=
  codeBlock

mutual
/-- `Transformer::walk_transform_block` with all hooks left at their
    defaults.  The `Container`, `FootnoteDefinition` and `GitHubAlert`
    arms inline the corresponding `walk_transform_*` defaults. -/
def walkTransformBlock : Block → Block
  | .container kind params blocks =>
      .container kind params (transformBlockList blocks)
  | .paragraph inlines => .paragraph (transformInlineList inlines)
  | .heading heading => .heading (walkTransformHeading heading)
  | .blockQuote blocks => .blockQuote (transformBlockList blocks)
  | .list kind items => .list kind (transformListItemList items)
  | .table t => .table { t with rows := t.rows.map walkTransformTableRow }
  | .footnoteDefinition label blocks =>
      .footnoteDefinition label (transformBlockList blocks)
  | .githubAlert alertType blocks =>
      .githubAlert alertType (transformBlockList blocks)
  | .definition d => .definition { d with label := transformInlineList d.label }
  | .codeBlock codeBlock => .codeBlock (walkTransformCodeBlock codeBlock)
  | .thematicBreak => .thematicBreak
  | .htmlBlock c => .htmlBlock c
  | .latexBlock c => .latexBlock c
  | .empty => .empty
  | .macroBlock c => .macroBlock c

/-- `Transformer::walk_transform_list_item` (default hooks). -/
def walkTransformListItem : ListItem → ListItem
  | .mk task blocks => .mk task (transformBlockList blocks)

/-- The `blocks.into_iter().map(|block| self.transform_block(block))`
    pattern of the default walks, with `transform_block` left at its
    default. -/
def transformBlockList : List Block → List Block
  | [] => []
  | b :: rest => walkTransformBlock b :: transformBlockList rest

/-- The `items.into_iter().map(|item| self.transform_list_item(item))`
    pattern, with `transform_list_item` left at its default. -/
def transformListItemList : List ListItem → List ListItem
  | [] => []
  | item :: rest => walkTransformListItem item :: transformListItemList rest
end

/-- `Transformer::walk_transform_document` (default hooks); equal to
    `transform_document` of the identity transformer, the entry point of
    `Document::transform_with`. -/
def walkTransformDocument (doc : Document) : Document :=
  { doc with blocks := transformBlockList doc.blocks }

/-! ## The visitor default walk (`src/ast_transform/visitor.rs`).

    `Visitor::walk_block` matches on every block variant it traverses;
    its match has arms for `Paragraph`, `Heading`, `BlockQuote`, `List`,
    `Table`, `FootnoteDefinition`, `GitHubAlert`, `Definition`,
    `CodeBlock` and the terminal group
    `ThematicBreak | HtmlBlock | Empty | LatexBlock`, and has **no arm**
    for `Block::Container` or `Block::MacroBlock`: the nested blocks of a
    container are never visited.  The functions below embed the traversal
    of the `TextCollector` visitor from the module's documentation and
    `src/ast_transform/tests/visitor_tests.rs` (visit_inline pushes the
    content of every `Inline::Text` and then continues with the default
    walk; every other method is left at its default), with the two absent
    arms modelled as visiting nothing. -/

mutual
/-- Texts collected by `TextCollector` from one block under the default
    `Visitor::walk_block`. -/
def collectTextsBlock : Block → List (List Char)
  | .paragraph inlines => collectTextsInlineList inlines
  | .heading heading => collectTextsInlineList heading.content
  | .blockQuote blocks => collectTextsBlockList blocks
  | .list _ items => collectTextsListItemList items
  | .table t => collectTextsRowList t.rows
  | .footnoteDefinition _ blocks => collectTextsBlockList blocks
  | .githubAlert _ blocks => collectTextsBlockList blocks
  | .definition d => collectTextsInlineList d.label
  | .codeBlock _ => []
  | .thematicBreak => []
  | .htmlBlock _ => []
  | .empty => []
  | .latexBlock _ => []
  | .container _ _ _ => []
  | .macroBlock _ => []

/-- Texts collected from one inline: `visit_inline` records `Text`
    content, then `walk_inline` descends into children. -/
def collectTextsInline : Inline → List (List Char)
  | .text t => [t]
  | .emphasis inlines => collectTextsInlineList inlines
  | .strong inlines => collectTextsInlineList inlines
  | .strikethrough inlines => collectTextsInlineList inlines
  | .link _ _ children => collectTextsInlineList children
  | .linkReference label text =>
      collectTextsInlineList label ++ collectTextsInlineList text
  | .image _ _ _ _ => []
  | .lineBreak => []
  | .code _ => []
  | .latex _ => []
  | .html _ => []
  | .autolink _ => []
  | .footnoteReference _ => []
  | .empty => []

/-- Visiting each inline of a list in order. -/
def collectTextsInlineList : List Inline → List (List Char)
  | [] => []
  | i :: rest => collectTextsInline i ++ collectTextsInlineList rest

/-- Visiting each block of a list in order. -/
def collectTextsBlockList : List Block → List (List Char)
  | [] => []
  | b :: rest => collectTextsBlock b ++ collectTextsBlockList rest

/-- `walk_list_item` visits the item's blocks. -/
def collectTextsListItem : ListItem → List (List Char)
  | .mk _ blocks => collectTextsBlockList blocks

/-- Visiting each list item in order. -/
def collectTextsListItemList : List ListItem → List (List Char)
  | [] => []
  | item :: rest => collectTextsListItem item ++ collectTextsListItemList rest

/-- `walk_table_row` visits each cell; `walk_table_cell` visits the
    cell's inline content. -/
def collectTextsRow : TableRow → List (List Char)
  | [] => []
  | cell :: rest => collectTextsInlineList cell.content ++ collectTextsRow rest

/-- Visiting each table row in order. -/
def collectTextsRowList : List TableRow → List (List Char)
  | [] => []
  | row :: rest => collectTextsRow row ++ collectTextsRowList rest
end

/-- `visit_document` / `walk_document`: visit every top-level block. -/
def collectTextsDocument (doc : Document) : List (List Char) :=
  collectTextsBlockList doc.blocks

/-! ## The generic (user-data carrying) AST (`src/ast/generic.rs`,
    reconstructed from its uses in `src/ast/convert.rs`): every node form
    of §3 plus a `user_data` payload of type `T`.  As with the plain AST,
    payload structs whose fields mention `Block` recursively are
    flattened into constructor arguments. -/

namespace generic

/-- `generic::ImageAttributes`. -/
structure ImageAttributes where
  width : Option (List Char)
  height : Option (List Char)

/-- `generic::ListKind` (mirrors `ListKind`; `From` conversions are
    field-identical). -/
inductive ListKind where
  | ordered (start : Nat)
  | bullet (kind : ListBulletKind)

/-- `generic::Inline<T>`. -/
inductive Inline (T : Type) where
  | text (content : List Char) (user_data : T)
  | lineBreak (user_data : T)
  | code (content : List Char) (user_data : T)
  | latex (content : List Char) (user_data : T)
  | html (content : List Char) (user_data : T)
  | link (destination : List Char) (title : Option (List Char))
      (children : List (Inline T)) (user_data : T)
  | linkReference (label : List (Inline T)) (text : List (Inline T))
      (user_data : T)
  | image (destination : List Char) (title : Option (List Char))
      (alt : List Char) (attr : Option ImageAttributes) (user_data : T)
  | emphasis (content : List (Inline T)) (user_data : T)
  | strong (content : List (Inline T)) (user_data : T)
  | strikethrough (content : List (Inline T)) (user_data : T)
  | autolink (url : List Char) (user_data : T)
  | footnoteReference (label : List Char) (user_data : T)
  | empty (user_data : T)

/-- `generic::Heading<T>`. -/
structure Heading (T : Type) where
  kind : HeadingKind
  content : List (Inline T)
  user_data : T

/-- `generic::CodeBlock<T>`. -/
structure CodeBlock (T : Type) where
  kind : CodeBlockKind
  literal : List Char
  user_data : T

/-- `generic::LinkDefinition<T>`. -/
structure LinkDefinition (T : Type) where
  label : List (Inline T)
  destination : List Char
  title : Option (List Char)
  user_data : T

/-- `generic::TableCell<T>` (no own user data). -/
structure TableCell (T : Type) where
  content : List (Inline T)
  colspan : Nat
  rowspan : Nat
  removed_by_extended_table : Bool

/-- `generic::Table<T>`. -/
structure Table (T : Type) where
  rows : List (List (TableCell T))
  alignments : List Alignment
  user_data : T

mutual
/-- `generic::Block<T>`: the 14 variants matched by
    `StripData for generic::Block<T>` (no macro-block variant).  The
    `List`, `Container`, `FootnoteDefinition` and `GitHubAlertNode`
    payload structs are flattened into constructor arguments. -/
inductive Block (T : Type) where
  | paragraph (content : List (Inline T)) (user_data : T)
  | heading (heading : Heading T)
  | thematicBreak (user_data : T)
  | blockQuote (blocks : List (Block T)) (user_data : T)
  | list (kind : ListKind) (items : List (ListItem T)) (user_data : T)
  | codeBlock (codeBlock : CodeBlock T)
  | htmlBlock (content : List Char) (user_data : T)
  | definition (definition : LinkDefinition T)
  | table (table : Table T)
  | footnoteDefinition (label : List Char) (blocks : List (Block T))
      (user_data : T)
  | githubAlert (alert_type : GitHubAlertType) (blocks : List (Block T))
      (user_data : T)
  | latexBlock (content : List Char) (user_data : T)
  | empty (user_data : T)
  | container (kind : List Char) (params : List (List Char × List Char))
      (blocks : List (Block T)) (user_data : T)

/-- `generic::ListItem<T>`. -/
inductive ListItem (T : Type) where
  | mk (task : Option TaskState) (blocks : List (Block T)) (user_data : T)
end

/-- `generic::Document<T>`. -/
structure Document (T : Type) where
  blocks : List (Block T)
  user_data : T

end generic

/-! ## Conversions between the two ASTs (`src/ast/convert.rs`).

    `WithData::with_data` is total on every node form except
    `Block::MacroBlock`, whose arm is `todo!()` (a panic); the embedding
    returns `Option`, with `none` for that panic.  Every child receives
    `T::default()` (here `default` of an `Inhabited` instance); only the
    node itself receives the supplied `data`. -/

/-- `From<ListKind> for generic::ListKind`. -/
def listKindToGeneric : ListKind → generic.ListKind
  | .ordered opts => .ordered opts
  | .bullet bullet => .bullet bullet

/-- `From<generic::ListKind> for ListKind`. -/
def listKindFromGeneric : generic.ListKind → ListKind
  | .ordered opts => .ordered opts
  | .bullet bullet => .bullet bullet

mutual
/-- `WithData<T> for Inline`. -/
def Inline.withData {T : Type} [Inhabited T] : Inline → T → generic.Inline T
  | .text content, data => .text content data
  | .lineBreak, data => .lineBreak data
  | .code content, data => .code content data
  | .latex content, data => .latex content data
  | .html content, data => .html content data
  | .link destination title children, data =>
      .link destination title (inlineListWithDefaultData children) data
  | .linkReference label text, data =>
      .linkReference (inlineListWithDefaultData label)
        (inlineListWithDefaultData text) data
  | .image destination title alt attr, data =>
      .image destination title alt
        (attr.map fun a => { width := a.width, height := a.height }) data
  | .emphasis content, data => .emphasis (inlineListWithDefaultData content) data
  | .strong content, data => .strong (inlineListWithDefaultData content) data
  | .strikethrough content, data =>
      .strikethrough (inlineListWithDefaultData content) data
  | .autolink url, data => .autolink url data
  | .footnoteReference label, data => .footnoteReference label data
  | .empty, data => .empty data

/-- The `content.into_iter().map(|i| i.with_data(T::default()))` pattern
    of the `WithData` impls. -/
def inlineListWithDefaultData {T : Type} [Inhabited T] :
    List Inline → List (generic.Inline T)
  | [] => []
  | i :: rest => Inline.withData i default :: inlineListWithDefaultData rest
end

/-- `WithData<T> for Heading`. -/
def Heading.withData {T : Type} [Inhabited T] (h : Heading) (data : T) :
    generic.Heading T :=
  { kind := h.kind, content := inlineListWithDefaultData h.content,
    user_data := data }

/-- `WithData<T> for CodeBlock`. -/
def CodeBlock.withData {T : Type} (cb : CodeBlock) (data : T) :
    generic.CodeBlock T :=
  { kind := cb.kind, literal := cb.literal, user_data := data }

/-- `WithData<T> for LinkDefinition`. -/
def LinkDefinition.withData {T : Type} [Inhabited T] (d : LinkDefinition)
    (data : T) : generic.LinkDefinition T :=
  { label := inlineListWithDefaultData d.label, destination := d.destination,
    title := d.title, user_data := data }

/-- The per-cell conversion inside `WithData<T> for Table`. -/
def TableCell.withData {T : Type} [Inhabited T] (cell : TableCell) :
    generic.TableCell T :=
  { content := inlineListWithDefaultData cell.content,
    colspan := cell.colspan, rowspan := cell.rowspan,
    removed_by_extended_table := cell.removed_by_extended_table }

/-- `WithData<T> for Table`. -/
def Table.withData {T : Type} [Inhabited T] (t : Table) (data : T) :
    generic.Table T :=
  { rows := t.rows.map fun row => row.map TableCell.withData,
    alignments := t.alignments, user_data := data }

mutual
/-- `WithData<T> for Block`; `none` models the `todo!()` panic of the
    `Block::MacroBlock` arm. -/
def Block.withData {T : Type} [Inhabited T] : Block → T → Option (generic.Block T)
  | .paragraph content, data =>
      some (.paragraph (inlineListWithDefaultData content) data)
  | .heading heading, data => some (.heading (heading.withData data))
  | .thematicBreak, data => some (.thematicBreak data)
  | .blockQuote blocks, data =>
      (blockListWithDefaultData blocks).map fun bs => .blockQuote bs data
  | .list kind items, data =>
      (listItemListWithDefaultData items).map fun its =>
        .list (listKindToGeneric kind) its data
  | .codeBlock codeBlock, data => some (.codeBlock (codeBlock.withData data))
  | .htmlBlock content, data => some (.htmlBlock content data)
  | .definition d, data => some (.definition (d.withData data))
  | .table t, data => some (.table (t.withData data))
  | .footnoteDefinition label blocks, data =>
      (blockListWithDefaultData blocks).map fun bs =>
        .footnoteDefinition label bs data
  | .githubAlert alertType blocks, data =>
      (blockListWithDefaultData blocks).map fun bs =>
        .githubAlert alertType bs data
  | .latexBlock content, data => some (.latexBlock content data)
  | .empty, data => some (.empty data)
  | .container kind params blocks, data =>
      (blockListWithDefaultData blocks).map fun bs =>
        .container kind params bs data
  | .macroBlock _, _ => none

/-- `WithData<T> for ListItem`. -/
def ListItem.withData {T : Type} [Inhabited T] :
    ListItem → T → Option (generic.ListItem T)
  | .mk task blocks, data =>
      (blockListWithDefaultData blocks).map fun bs => .mk task bs data

/-- The `blocks.into_iter().map(|b| b.with_data(T::default()))` pattern,
    sequencing the possible `MacroBlock` panic. -/
def blockListWithDefaultData {T : Type} [Inhabited T] :
    List Block → Option (List (generic.Block T))
  | [] => some []
  | b :: rest =>
      match Block.withData b default, blockListWithDefaultData rest with
      | some gb, some gbs => some (gb :: gbs)
      | _, _ => none

/-- The `items.into_iter().map(|i| i.with_data(T::default()))` pattern. -/
def listItemListWithDefaultData {T : Type} [Inhabited T] :
    List ListItem → Option (List (generic.ListItem T))
  | [] => some []
  | item :: rest =>
      match ListItem.withData item default, listItemListWithDefaultData rest with
      | some gi, some gis => some (gi :: gis)
      | _, _ => none
end

/-- `WithData<T> for Document`. -/
def Document.withData {T : Type} [Inhabited T] (doc : Document) (data : T) :
    Option (generic.Document T) :=
  (blockListWithDefaultData doc.blocks).map fun bs =>
    { blocks := bs, user_data := data }

mutual
/-- `StripData<T> for generic::Inline<T>`. -/
def generic.Inline.stripData {T : Type} :
    generic.Inline T → MarkdownPPP.Inline
  | .text content _ => .text content
  | .lineBreak _ => .lineBreak
  | .code content _ => .code content
  | .latex content _ => .latex content
  | .html content _ => .html content
  | .link destination title children _ =>
      .link destination title (generic.inlineListStripData children)
  | .linkReference label text _ =>
      .linkReference (generic.inlineListStripData label)
        (generic.inlineListStripData text)
  | .image destination title alt attr _ =>
      .image destination title alt
        (attr.map fun a => { width := a.width, height := a.height })
  | .emphasis content _ => .emphasis (generic.inlineListStripData content)
  | .strong content _ => .strong (generic.inlineListStripData content)
  | .strikethrough content _ =>
      .strikethrough (generic.inlineListStripData content)
  | .autolink url _ => .autolink url
  | .footnoteReference label _ => .footnoteReference label
  | .empty _ => .empty

/-- The `content.into_iter().map(|i| i.strip_data())` pattern. -/
def generic.inlineListStripData {T : Type} :
    List (generic.Inline T) → List MarkdownPPP.Inline
  | [] => []
  | i :: rest =>
      generic.Inline.stripData i :: generic.inlineListStripData rest
end

/-- `StripData<T> for generic::Heading<T>`. -/
def generic.Heading.stripData {T : Type} (h : generic.Heading T) :
    MarkdownPPP.Heading :=
  { kind := h.kind, content := generic.inlineListStripData h.content }

/-- `StripData<T> for generic::CodeBlock<T>`. -/
def generic.CodeBlock.stripData {T : Type} (cb : generic.CodeBlock T) :
    MarkdownPPP.CodeBlock :=
  { kind := cb.kind, literal := cb.literal }

/-- `StripData<T> for generic::LinkDefinition<T>`. -/
def generic.LinkDefinition.stripData {T : Type} (d : generic.LinkDefinition T) :
    MarkdownPPP.LinkDefinition :=
  { label := generic.inlineListStripData d.label,
    destination := d.destination, title := d.title }

/-- The per-cell conversion inside `StripData<T> for generic::Table<T>`. -/
def generic.TableCell.stripData {T : Type} (cell : generic.TableCell T) :
    MarkdownPPP.TableCell :=
  { content := generic.inlineListStripData cell.content,
    colspan := cell.colspan, rowspan := cell.rowspan,
    removed_by_extended_table := cell.removed_by_extended_table }

/-- `StripData<T> for generic::Table<T>`. -/
def generic.Table.stripData {T : Type} (t : generic.Table T) :
    MarkdownPPP.Table :=
  { rows := t.rows.map fun row => row.map generic.TableCell.stripData,
    alignments := t.alignments }

mutual
/-- `StripData<T> for generic::Block<T>`. -/
def generic.Block.stripData {T : Type} : generic.Block T → MarkdownPPP.Block
  | .paragraph content _ => .paragraph (generic.inlineListStripData content)
  | .heading heading => .heading (generic.Heading.stripData heading)
  | .thematicBreak _ => .thematicBreak
  | .blockQuote blocks _ => .blockQuote (generic.blockListStripData blocks)
  | .list kind items _ =>
      .list (listKindFromGeneric kind) (generic.listItemListStripData items)
  | .codeBlock codeBlock => .codeBlock (generic.CodeBlock.stripData codeBlock)
  | .htmlBlock content _ => .htmlBlock content
  | .definition d => .definition (generic.LinkDefinition.stripData d)
  | .table t => .table (generic.Table.stripData t)
  | .footnoteDefinition label blocks _ =>
      .footnoteDefinition label (generic.blockListStripData blocks)
  | .githubAlert alertType blocks _ =>
      .githubAlert alertType (generic.blockListStripData blocks)
  | .latexBlock content _ => .latexBlock content
  | .empty _ => .empty
  | .container kind params blocks _ =>
      .container kind params (generic.blockListStripData blocks)

/-- `StripData<T> for generic::ListItem<T>`. -/
def generic.ListItem.stripData {T : Type} :
    generic.ListItem T → MarkdownPPP.ListItem
  | .mk task blocks _ => .mk task (generic.blockListStripData blocks)

/-- The `blocks.into_iter().map(|b| b.strip_data())` pattern. -/
def generic.blockListStripData {T : Type} :
    List (generic.Block T) → List MarkdownPPP.Block
  | [] => []
  | b :: rest => generic.Block.stripData b :: generic.blockListStripData rest

/-- The `items.into_iter().map(|i| i.strip_data())` pattern. -/
def generic.listItemListStripData {T : Type} :
    List (generic.ListItem T) → List MarkdownPPP.ListItem
  | [] => []
  | item :: rest =>
      generic.ListItem.stripData item :: generic.listItemListStripData rest
end

/-- `StripData<T> for generic::Document<T>`. -/
def generic.Document.stripData {T : Type} (doc : generic.Document T) :
    MarkdownPPP.Document :=
  { blocks := generic.blockListStripData doc.blocks }

/-- `to_generic`: convert to the generic AST with unit user data
    (`with_default_data`, i.e. `with_data(T::default())` at `T = ()`). -/
def to_generic (doc : Document) : Option (generic.Document Unit) :=
  doc.withData ()

/-- `from_generic`: strip unit user data. -/
def from_generic (doc : generic.Document Unit) : Document :=
  doc.stripData

mutual
/-- No `Block::MacroBlock` occurs anywhere in this block. -/
def noMacroBlock : Block → Bool
  | .macroBlock _ => false
  | .blockQuote blocks => noMacroBlockList blocks
  | .footnoteDefinition _ blocks => noMacroBlockList blocks
  | .githubAlert _ blocks => noMacroBlockList blocks
  | .container _ _ blocks => noMacroBlockList blocks
  | .list _ items => noMacroListItemList items
  | .paragraph _ => true
  | .heading _ => true
  | .thematicBreak => true
  | .codeBlock _ => true
  | .htmlBlock _ => true
  | .definition _ => true
  | .table _ => true
  | .latexBlock _ => true
  | .empty => true

/-- No `Block::MacroBlock` occurs in any of these blocks. -/
def noMacroBlockList : List Block → Bool
  | [] => true
  | b :: rest => noMacroBlock b && noMacroBlockList rest

/-- No `Block::MacroBlock` occurs in this list item. -/
def noMacroListItem : ListItem → Bool
  | .mk _ blocks => noMacroBlockList blocks

/-- No `Block::MacroBlock` occurs in any of these list items. -/
def noMacroListItemList : List ListItem → Bool
  | [] => true
  | item :: rest => noMacroListItem item && noMacroListItemList rest
end

/-- No `Block::MacroBlock` occurs anywhere in the document. -/
def noMacroDocument (doc : Document) : Bool :=
  noMacroBlockList doc.blocks

/-! ## Structural equality on inlines.

    Rust's derived `PartialEq`/`Eq`/`Hash` on `Inline` is structural; the
    `HashMap<Vec<Inline>, LinkDefinition>` of the renderer state compares
    label keys with it.  `inlineBeq` embeds that structural comparison. -/

mutual
/-- Structural equality of two inlines (derived `PartialEq`). -/
def inlineBeq : Inline → Inline → Bool
  | .text a, .text b => a == b
  | .lineBreak, .lineBreak => true
  | .code a, .code b => a == b
  | .latex a, .latex b => a == b
  | .html a, .html b => a == b
  | .link d1 t1 c1, .link d2 t2 c2 => d1 == d2 && t1 == t2 && inlineListBeq c1 c2
  | .linkReference l1 x1, .linkReference l2 x2 =>
      inlineListBeq l1 l2 && inlineListBeq x1 x2
  | .image d1 t1 a1 r1, .image d2 t2 a2 r2 =>
      d1 == d2 && t1 == t2 && a1 == a2 && r1 == r2
  | .emphasis a, .emphasis b => inlineListBeq a b
  | .strong a, .strong b => inlineListBeq a b
  | .strikethrough a, .strikethrough b => inlineListBeq a b
  | .autolink a, .autolink b => a == b
  | .footnoteReference a, .footnoteReference b => a == b
  | .empty, .empty => true
  | _, _ => false

/-- Structural equality of two inline sequences. -/
def inlineListBeq : List Inline → List Inline → Bool
  | [], [] => true
  | a :: as_, b :: bs => inlineBeq a b && inlineListBeq as_ bs
  | _, _ => false
end

/-! ## Deferred-resolution indexing
    (`get_indices`, `src/typst_printer/mod.rs`, lines 232–286; the file
    implements the `latex_printer` module).

    The two `HashMap`s are modelled as association lists where `insert`
    prepends the new binding: `HashMap::insert` replaces any existing
    binding for the key, and the only observation the renderer makes of
    the maps is `get`, for which a prepended binding shadowing older ones
    behaves identically. -/

mutual
/-- `process_blocks` (the inner recursive function of `get_indices`):
    walks `blocks` in order, threading the footnote map, the link map and
    the 1-based footnote counter.  It recurses into list items, block
    quotes and GitHub alerts; every other variant (containers and the
    bodies of footnote definitions included) falls to the catch-all. -/
def process_blocks : List Block → List (List Char × Nat) →
    List (List Inline × LinkDefinition) → Nat →
    List (List Char × Nat) × List (List Inline × LinkDefinition) × Nat
  | [], fmap, lmap, counter => (fmap, lmap, counter)
  | .footnoteDefinition label _ :: rest, fmap, lmap, counter =>
      process_blocks rest ((label, counter) :: fmap) lmap (counter + 1)
  | .definition d :: rest, fmap, lmap, counter =>
      process_blocks rest fmap ((d.label, d) :: lmap) counter
  | .list _ items :: rest, fmap, lmap, counter =>
      match process_items items fmap lmap counter with
      | (fmap1, lmap1, counter1) => process_blocks rest fmap1 lmap1 counter1
  | .blockQuote blocks :: rest, fmap, lmap, counter =>
      match process_blocks blocks fmap lmap counter with
      | (fmap1, lmap1, counter1) => process_blocks rest fmap1 lmap1 counter1
  | .githubAlert _ blocks :: rest, fmap, lmap, counter =>
      match process_blocks blocks fmap lmap counter with
      | (fmap1, lmap1, counter1) => process_blocks rest fmap1 lmap1 counter1
  | .paragraph _ :: rest, fmap, lmap, counter =>
      process_blocks rest fmap lmap counter
  | .heading _ :: rest, fmap, lmap, counter =>
      process_blocks rest fmap lmap counter
  | .thematicBreak :: rest, fmap, lmap, counter =>
      process_blocks rest fmap lmap counter
  | .codeBlock _ :: rest, fmap, lmap, counter =>
      process_blocks rest fmap lmap counter
  | .htmlBlock _ :: rest, fmap, lmap, counter =>
      process_blocks rest fmap lmap counter
  | .table _ :: rest, fmap, lmap, counter =>
      process_blocks rest fmap lmap counter
  | .latexBlock _ :: rest, fmap, lmap, counter =>
      process_blocks rest fmap lmap counter
  | .empty :: rest, fmap, lmap, counter =>
      process_blocks rest fmap lmap counter
  | .container _ _ _ :: rest, fmap, lmap, counter =>
      process_blocks rest fmap lmap counter
  | .macroBlock _ :: rest, fmap, lmap, counter =>
      process_blocks rest fmap lmap counter

/-- The `for item in &list.items { process_blocks(&item.blocks, ...) }`
    loop. -/
def process_items : List ListItem → List (List Char × Nat) →
    List (List Inline × LinkDefinition) → Nat →
    List (List Char × Nat) × List (List Inline × LinkDefinition) × Nat
  | [], fmap, lmap, counter => (fmap, lmap, counter)
  | .mk _ blocks :: rest, fmap, lmap, counter =>
      match process_blocks blocks fmap lmap counter with
      | (fmap1, lmap1, counter1) => process_items rest fmap1 lmap1 counter1
end

/-- `get_indices`: build the footnote index and the link-definition map
    from a document (counter starts at 1). -/
def get_indices (ast : Document) :
    List (List Char × Nat) × List (List Inline × LinkDefinition) :=
  match process_blocks ast.blocks [] [] 1 with
  | (fmap, lmap, _) => (fmap, lmap)

/-! Specification-side description of the same walk, written from the
    (amended) claim's words: a pre-order enumeration of footnote labels
    and link definitions that recurses into list items, block-quote
    bodies and GitHub-alert bodies, paired with the map built by
    inserting the k-th footnote label with 1-based index k. -/

mutual
/-- Spec-side: footnote labels in pre-order walk order (recursing into
    list items, block-quote bodies and GitHub-alert bodies only). -/
def specFootnoteLabels : List Block → List (List Char)
  | [] => []
  | .footnoteDefinition label _ :: rest => label :: specFootnoteLabels rest
  | .list _ items :: rest =>
      specFootnoteLabelsItems items ++ specFootnoteLabels rest
  | .blockQuote blocks :: rest =>
      specFootnoteLabels blocks ++ specFootnoteLabels rest
  | .githubAlert _ blocks :: rest =>
      specFootnoteLabels blocks ++ specFootnoteLabels rest
  | .definition _ :: rest => specFootnoteLabels rest
  | .paragraph _ :: rest => specFootnoteLabels rest
  | .heading _ :: rest => specFootnoteLabels rest
  | .thematicBreak :: rest => specFootnoteLabels rest
  | .codeBlock _ :: rest => specFootnoteLabels rest
  | .htmlBlock _ :: rest => specFootnoteLabels rest
  | .table _ :: rest => specFootnoteLabels rest
  | .latexBlock _ :: rest => specFootnoteLabels rest
  | .empty :: rest => specFootnoteLabels rest
  | .container _ _ _ :: rest => specFootnoteLabels rest
  | .macroBlock _ :: rest => specFootnoteLabels rest

/-- Spec-side: footnote labels inside list items. -/
def specFootnoteLabelsItems : List ListItem → List (List Char)
  | [] => []
  | .mk _ blocks :: rest =>
      specFootnoteLabels blocks ++ specFootnoteLabelsItems rest
end

mutual
/-- Spec-side: link definitions in pre-order walk order (same recursion
    structure as `specFootnoteLabels`). -/
def specLinkDefs : List Block → List LinkDefinition
  | [] => []
  | .definition d :: rest => d :: specLinkDefs rest
  | .list _ items :: rest => specLinkDefsItems items ++ specLinkDefs rest
  | .blockQuote blocks :: rest => specLinkDefs blocks ++ specLinkDefs rest
  | .githubAlert _ blocks :: rest => specLinkDefs blocks ++ specLinkDefs rest
  | .footnoteDefinition _ _ :: rest => specLinkDefs rest
  | .paragraph _ :: rest => specLinkDefs rest
  | .heading _ :: rest => specLinkDefs rest
  | .thematicBreak :: rest => specLinkDefs rest
  | .codeBlock _ :: rest => specLinkDefs rest
  | .htmlBlock _ :: rest => specLinkDefs rest
  | .table _ :: rest => specLinkDefs rest
  | .latexBlock _ :: rest => specLinkDefs rest
  | .empty :: rest => specLinkDefs rest
  | .container _ _ _ :: rest => specLinkDefs rest
  | .macroBlock _ :: rest => specLinkDefs rest

/-- Spec-side: link definitions inside list items. -/
def specLinkDefsItems : List ListItem → List LinkDefinition
  | [] => []
  | .mk _ blocks :: rest => specLinkDefs blocks ++ specLinkDefsItems rest
end

/-- Spec-side: insert the labels in order, the one at position k (from
    `start`) bound to index k. -/
def buildFootnoteMap (labels : List (List Char)) (start : Nat)
    (acc : List (List Char × Nat)) : List (List Char × Nat) :=
  match labels with
  | [] => acc
  | label :: rest => buildFootnoteMap rest (start + 1) ((label, start) :: acc)

/-- Spec-side: insert the link definitions in order, keyed by their raw
    label inline sequence. -/
def buildLinkMap (defs : List LinkDefinition)
    (acc : List (List Inline × LinkDefinition)) :
    List (List Inline × LinkDefinition) :=
  match defs with
  | [] => acc
  | d :: rest => buildLinkMap rest ((d.label, d) :: acc)

/-! ## The LaTeX renderer fragments
    (`src/typst_printer/{mod,inline,table,util}.rs`, which implement the
    `latex_printer` module).

    The pretty-printer `DocBuilder` values are modelled by the `Doc`
    tree below; `Doc.flat` is the flat-mode rendering (every `softline`
    printed as a space), which is how a document is laid out when the
    line width is not exceeded. -/

/-- The pretty-printer document tree: the constructors used by the
    renderer (`arena.text`, `arena.hardline`, `arena.softline`,
    `arena.nil`, `DocBuilder::append`). -/
inductive Doc where
  | text (s : List Char)
  | hardline
  | softline
  | nil
  | append (a b : Doc)

/-- Flat-mode rendering of a `Doc`. -/
def Doc.flat : Doc → List Char
  | .text s => s
  | .hardline => ['\n']
  | .softline => [' ']
  | .nil => []
  | .append a b => a.flat ++ b.flat

/-- `arena.concat` over a list of documents. -/
def docConcat (docs : List Doc) : Doc :=
  docs.foldl Doc.append Doc.nil

/-- `util::escape_latex`, per character. -/
def escape_latex_char (c : Char) : List Char :=
  if c = '\\' then "\\textbackslash\x7b\x7d".data
  else if c = '\x7b' then "\\\x7b".data
  else if c = '\x7d' then "\\\x7d".data
  else if c = '$' then "\\$".data
  else if c = '&' then "\\&".data
  else if c = '%' then "\\%".data
  else if c = '#' then "\\#".data
  else if c = '^' then "\\textasciicircum\x7b\x7d".data
  else if c = '_' then "\\_".data
  else if c = '~' then "\\textasciitilde\x7b\x7d".data
  else [c]

/-- `util::escape_latex`: escape LaTeX special characters. -/
def escape_latex (text : List Char) : List Char :=
  text.flatMap escape_latex_char

/-- `util::command`: `\name[arg]...{content}`. -/
def command (name : List Char) (args : List (List Char)) (content : Doc) :
    Doc :=
  let cmd := args.foldl
    (fun acc arg => acc.append (Doc.text ('[' :: arg ++ [']'])))
    (Doc.text ('\\' :: name))
  ((cmd.append (Doc.text ['\x7b'])).append content).append (Doc.text ['\x7d'])

/-- `str::trim` on a character list. -/
def trimChars (s : List Char) : List Char :=
  ((s.dropWhile Char.isWhitespace).reverse.dropWhile Char.isWhitespace).reverse

/-- `inline::split_with_spaces`: split into words (`some`) and
    single collapsed whitespace markers (`none`); a marker is appended
    only when the previous element is a word or the result is empty,
    mirroring the `is_none_or` guard of the source loop. -/
def split_with_spaces_go (s : List Char) (word : List Char)
    (acc : List (Option (List Char))) : List (Option (List Char)) :=
  match s with
  | [] => if word.isEmpty then acc else acc ++ [some word]
  | c :: rest =>
      if c.isWhitespace then
        let acc1 := if word.isEmpty then acc else acc ++ [some word]
        let acc2 :=
          match acc1.getLast? with
          | some none => acc1
          | _ => acc1 ++ [none]
        split_with_spaces_go rest [] acc2
      else split_with_spaces_go rest (word ++ [c]) acc

/-- `inline::split_with_spaces` entry point. -/
def split_with_spaces (s : List Char) : List (Option (List Char)) :=
  split_with_spaces_go s [] []

/-- The renderer `State` (`src/typst_printer/mod.rs`): the two
    deferred-resolution maps built by `get_indices`.  (The arena and the
    configuration play no part in the embedded fragments.) -/
structure State where
  footnote_index : List (List Char × Nat)
  link_definitions : List (List Inline × LinkDefinition)

/-- `HashMap::get` on the footnote map model: first matching binding. -/
def footnoteMapGet (m : List (List Char × Nat)) (label : List Char) :
    Option Nat :=
  match m with
  | [] => none
  | (k, v) :: rest => if k = label then some v else footnoteMapGet rest label

/-- `HashMap::get` on the link map model: first binding whose key is
    structurally equal to the label. -/
def linkMapGet (m : List (List Inline × LinkDefinition))
    (label : List Inline) : Option LinkDefinition :=
  match m with
  | [] => none
  | (k, v) :: rest =>
      if inlineListBeq k label then some v else linkMapGet rest label

/-- `State::get_footnote_index`. -/
def State.get_footnote_index (st : State) (label : List Char) : Option Nat :=
  footnoteMapGet st.footnote_index label

/-- `State::get_link_definition`; keys are compared structurally. -/
def State.get_link_definition (st : State) (label : List Inline) :
    Option LinkDefinition :=
  linkMapGet st.link_definitions label

mutual
/-- `ToDoc for Inline` (`src/typst_printer/inline.rs`).  The source
    match has no arm for `Inline::Latex` (the variant is absent from the
    match); it is modelled as producing nothing. -/
def Inline.to_doc (st : State) : Inline → Doc
  | .text content =>
      let text1 := content.map fun c => if c = '\n' then ' ' else c
      if (trimChars text1).isEmpty then .text (escape_latex text1)
      else
        docConcat ((split_with_spaces text1).map fun v =>
          match v with
          | some word => Doc.text (escape_latex word)
          | none => Doc.softline)
  | .lineBreak => (Doc.text "\\\\".data).append .hardline
  | .code code => command "texttt".data [] (.text (escape_latex code))
  | .html html => .text (escape_latex html)
  | .link destination title children =>
      let text := inlineListToDoc st children
      let url := escape_latex destination
      match title with
      | some t =>
          ((((command "href".data [] (.text url)).append
            (Doc.text ['\x7b'])).append text).append
            (Doc.text ['\x7d'])).append
            (command "footnote".data [] (.text (escape_latex t)))
      | none =>
          (((command "href".data [] (.text url)).append
            (Doc.text ['\x7b'])).append text).append (Doc.text ['\x7d'])
  | .linkReference label text =>
      match st.get_link_definition label with
      | some definition =>
          (((command "href".data []
            (.text (escape_latex definition.destination))).append
            (Doc.text ['\x7b'])).append (inlineListToDoc st text)).append
            (Doc.text ['\x7d'])
      | none =>
          ((((Doc.text ['[']).append (inlineListToDoc st text)).append
            (Doc.text "][".data)).append (inlineListToDoc st label)).append
            (Doc.text [']'])
  | .image destination title alt attr =>
      let _ := title
      let _ := attr
      let url := escape_latex destination
      let altEsc := escape_latex alt
      let cmd := command "includegraphics".data [] Doc.nil
      let cmd := ((cmd.append (Doc.text ['\x7b'])).append
        (Doc.text url)).append (Doc.text ['\x7d'])
      if alt.isEmpty then cmd
      else cmd.append (command "caption".data [] (.text altEsc))
  | .emphasis content =>
      command "textit".data [] (inlineListToDoc st content)
  | .strong content =>
      command "textbf".data [] (inlineListToDoc st content)
  | .strikethrough content =>
      command "sout".data [] (inlineListToDoc st content)
  | .autolink url =>
      command "url".data [] (.text (escape_latex url))
  | .footnoteReference label =>
      match st.get_footnote_index label with
      | some index =>
          command "footnotemark".data []
            (.text ('[' :: (Nat.repr index).data ++ [']']))
      | none =>
          ((Doc.text "[^".data).append
            (Doc.text (escape_latex label))).append (Doc.text [']'])
  | .empty => .nil
  | .latex _ => .nil

/-- `ToDoc for Vec<Inline>`: concatenation of the element documents. -/
def inlineListToDoc (st : State) : List Inline → Doc
  | [] => .nil
  | i :: rest => (Inline.to_doc st i).append (inlineListToDoc st rest)
end

/-- The document of one table cell.  Modelled from the spec: the `ToDoc`
    impl applied to a cell by `render_table_row` is not under src/; per
    §3 a cell renders as its inline `content`. -/
def cellToDoc (st : State) (cell : TableCell) : Doc :=
  inlineListToDoc st cell.content

/-- `table::render_table_row`: every cell is rendered in order, with
    `" & "` before each cell except the first (`i > 0`), and `" \\"`
    appended. -/
def render_table_row (st : State) (row : TableRow) : Doc :=
  (row.foldl
    (fun (acc : Doc × Bool) cell =>
      let acc0 := if acc.2 then acc.1 else acc.1.append (Doc.text " & ".data)
      (acc0.append (cellToDoc st cell), false))
    (Doc.nil, true)).1.append (Doc.text " \\\\".data)

/-- Spec-side list join with a separator between consecutive elements. -/
def joinSep (sep : List Char) : List (List Char) → List Char
  | [] => []
  | [x] => x
  | x :: rest => x ++ sep ++ joinSep sep rest

/-! ## The nom parser fragments
    (`src/parser/blocks/container.rs` and `src/parser/inline/image.rs`).

    A parser takes a `List Char` and produces `PResult`: `ok rest value`,
    or one of nom's two failure modes — `error` (recoverable
    `Err::Error`: combinators such as `alt` and the caller's recognizer
    chain fall through to the next alternative) and `failure` (fatal
    `Err::Failure`, produced by `cut`: it aborts every enclosing
    alternative).  Each failure carries the input position it was raised
    at.  Rust's Unicode `char::is_alphanumeric` / `char::is_whitespace`
    are modelled by the ASCII `Char.isAlphanum` / `Char.isWhitespace`,
    which agree on the ASCII inputs considered in the theorems. -/

/-- Result of a nom parser over `List Char` input. -/
inductive PResult (α : Type) where
  | ok (rest : List Char) (value : α)
  | error (input : List Char)
  | failure (input : List Char)
deriving DecidableEq

/-- Is this nom's fatal `Err::Failure`? -/
def PResult.isFailure {α : Type} : PResult α → Bool
  | .failure _ => true
  | _ => false

/-- Is this nom's recoverable `Err::Error`? -/
def PResult.isError {α : Type} : PResult α → Bool
  | .error _ => true
  | _ => false

/-- Space or tab (the character class of nom's `space0`). -/
def isSpaceTab (c : Char) : Bool :=
  c == ' ' || c == '\t'

/-- The character class of nom's `multispace0`/`multispace1`. -/
def isMultispace (c : Char) : Bool :=
  c == ' ' || c == '\t' || c == '\r' || c == '\n'

/-- nom `take_while1 p`: the longest non-empty run satisfying `p`. -/
def take_while1 (p : Char → Bool) (input : List Char) :
    PResult (List Char) :=
  let run := input.takeWhile p
  if run.isEmpty then .error input else .ok (input.drop run.length) run

/-- nom `tag t`. -/
def tagP (t : List Char) (input : List Char) : PResult (List Char) :=
  if input.take t.length = t then .ok (input.drop t.length) t
  else .error input

/-- nom `char c`. -/
def charP (c : Char) (input : List Char) : PResult Char :=
  match input with
  | c' :: rest => if c' = c then .ok rest c else .error input
  | [] => .error input

/-- nom `space0` (cannot fail): the rest after dropping spaces/tabs. -/
def space0 (input : List Char) : List Char :=
  input.dropWhile isSpaceTab

/-- nom `multispace0` (cannot fail). -/
def multispace0 (input : List Char) : List Char :=
  input.dropWhile isMultispace

/-- nom `multispace1`. -/
def multispace1 (input : List Char) : PResult (List Char) :=
  take_while1 isMultispace input

/-- nom `line_ending`: `\n` or `\r\n`. -/
def line_ending (input : List Char) : PResult (List Char) :=
  match input with
  | '\n' :: rest => .ok rest ['\n']
  | '\r' :: '\n' :: rest => .ok rest ['\r', '\n']
  | _ => .error input

/-- nom `not_line_ending`: the (possibly empty) run before `\n`/`\r`.
    (nom additionally rejects a lone `\r`; no input considered here
    contains one.) -/
def not_line_ending (input : List Char) : PResult (List Char) :=
  .ok (input.dropWhile fun c => !(c == '\n' || c == '\r'))
    (input.takeWhile fun c => !(c == '\n' || c == '\r'))

/-- nom `separated_list0(sep, elem)`, the loop after the first element:
    stop on a recoverable `sep` or `elem` error, propagate fatal
    failures, and raise an error when `sep` consumes nothing (nom's
    infinite-loop guard).  `sep` consumes input on success, so fuel
    `|input| + 1` is never exhausted. -/
def separated_list0_loop {α : Type} (sep : List Char → PResult (List Char))
    (elem : List Char → PResult α) :
    Nat → List Char → List α → PResult (List α)
  | 0, i, _ => .error i
  | fuel + 1, i, acc =>
    match sep i with
    | .error _ => .ok i acc
    | .failure p => .failure p
    | .ok i2 _ =>
      if i2.length = i.length then .error i2
      else
        match elem i2 with
        | .error _ => .ok i acc
        | .failure p => .failure p
        | .ok i3 v => separated_list0_loop sep elem fuel i3 (acc ++ [v])

/-- nom `separated_list0(sep, elem)`: empty list when the first element
    is a recoverable error. -/
def separated_list0 {α : Type} (sep : List Char → PResult (List Char))
    (elem : List Char → PResult α) (fuel : Nat) (input : List Char) :
    PResult (List α) :=
  match elem input with
  | .error _ => .ok input []
  | .failure p => .failure p
  | .ok i1 v => separated_list0_loop sep elem fuel i1 [v]

/-- `container::parse_quoted_string`:
    `delimited(char('"'), is_not("\""), char('"'))`. -/
def parse_quoted_string (input : List Char) : PResult (List Char) :=
  match input with
  | '"' :: rest =>
    match take_while1 (fun c => c != '"') rest with
    | .ok r content =>
      (match r with
       | '"' :: r2 => .ok r2 content
       | _ => .error r)
    | .error p => .error p
    | .failure p => .failure p
  | _ => .error input

/-- `container::parse_unquoted_string`:
    `take_while1(alphanumeric or '-' or '_')`. -/
def parse_unquoted_string (input : List Char) : PResult (List Char) :=
  take_while1 (fun c => c.isAlphanum || c == '-' || c == '_') input

/-- `container::parse_value`: quoted, else unquoted. -/
def parse_value (input : List Char) : PResult (List Char) :=
  match parse_quoted_string input with
  | .ok r v => .ok r v
  | .failure p => .failure p
  | .error _ => parse_unquoted_string input

/-- `container::parse_key_value_pair`:
    `separated_pair(key, (space0, char('='), space0), cut(parse_value))`.
    The `cut` promotes a recoverable error of `parse_value` into a fatal
    failure. -/
def parse_key_value_pair (input : List Char) :
    PResult (List Char × List Char) :=
  match take_while1 (fun c => c.isAlphanum || c == '-' || c == '_') input with
  | .error p => .error p
  | .failure p => .failure p
  | .ok r1 k =>
    match charP '=' (space0 r1) with
    | .error p => .error p
    | .failure p => .failure p
    | .ok r3 _ =>
      match parse_value (space0 r3) with
      | .ok r5 v => .ok r5 (k, v)
      | .error p => .failure p
      | .failure p => .failure p

/-- `container::parse_container_params`:
    `{` then whitespace then `separated_list0(multispace1, kvp)` then
    whitespace then `}`. -/
def parse_container_params (input : List Char) :
    PResult (List (List Char × List Char)) :=
  match charP '\x7b' input with
  | .error p => .error p
  | .failure p => .failure p
  | .ok r1 _ =>
    let r2 := multispace0 r1
    match separated_list0 multispace1 parse_key_value_pair
        (r2.length + 1) r2 with
    | .error p => .error p
    | .failure p => .failure p
    | .ok r3 kvs =>
      match charP '\x7d' (multispace0 r3) with
      | .error p => .error p
      | .failure p => .failure p
      | .ok r5 _ => .ok r5 kvs

/-- Modelled from the spec: `MarkdownParserState` (`src/parser/mod.rs` is
    not under src/); spec §4.1 — the ambient context carrying the active
    container-kind stack, threaded by derivation.  Only the `containers`
    stack is consulted by the embedded fragments. -/
structure MarkdownParserState where
  containers : List (List Char)

/-- Modelled from the spec: `MarkdownParserState::nested` — §4.1's
    `derive_child`: a fresh child state equal to the parent (the caller
    pushes onto the copy). -/
def MarkdownParserState.nested (state : MarkdownParserState) :
    MarkdownParserState :=
  state

/-- The closing-fence recognizer of the `many_till` terminator:
    `preceded(many_m_n(0, 3, char(' ')), tag(":::"))` — greedily skip up
    to three spaces, then require `:::`. -/
def closingFence (input : List Char) : PResult (List Char) :=
  let n := min 3 (input.takeWhile (fun c => c == ' ')).length
  tagP ":::".data (input.drop n)

/-- `many_till(anychar, closingFence)`: collect characters until the
    first position where the closing fence matches; error at end of
    input (`anychar` fails). -/
def containerBody (s : List Char) : PResult (List Char) :=
  match closingFence s with
  | .ok rest _ => .ok rest []
  | .failure p => .failure p
  | .error _ =>
    match s with
    | [] => .error []
    | c :: t =>
      match containerBody t with
      | .ok r cs => .ok r (c :: cs)
      | .error p => .error p
      | .failure p => .failure p

/-- Modelled from the spec: `parser::util::line_terminated` is not under
    src/; spec §2 lists line-terminated runs among the lexical
    primitives — run the inner recognizer, then consume the line ending
    (or accept end of input). -/
def line_terminated {α : Type} (p : List Char → PResult α)
    (input : List Char) : PResult α :=
  match p input with
  | .ok rest v =>
    (match rest with
     | [] => .ok [] v
     | _ =>
       match line_ending rest with
       | .ok r2 _ => .ok r2 v
       | .error p2 => .error p2
       | .failure p2 => .failure p2)
  | .error p2 => .error p2
  | .failure p2 => .failure p2

/-- `container::container` (`src/parser/blocks/container.rs`), with the
    recursive inner block parse (`many0(crate::parser::blocks::block(...))`
    followed by flattening, not under src/) abstracted as the
    `innerBlocks` parameter.  Every step mirrors the source in order:
    the re-entrancy guard, up to three spaces of indentation, the
    line-terminated `:::`-prefixed opening line, the kind token, the
    optional `{...}` params, the trailing-content check, the body scan,
    the inner parse (with `map_input` replacing a failing inner parse's
    position by the post-opening-line input), and the final line
    ending. -/
def container
    (innerBlocks : MarkdownParserState → List Char → PResult (List Block))
    (state : MarkdownParserState) (input : List Char) : PResult Block :=
  if !state.containers.isEmpty then .error input
  else
    let i1 := input.drop (min 3 (input.takeWhile (fun c => c == ' ')).length)
    match line_terminated
        (fun s =>
          match tagP ":::".data s with
          | .ok r _ => not_line_ending r
          | .error p => .error p
          | .failure p => .failure p) i1 with
    | .error p => .error p
    | .failure p => .failure p
    | .ok i2 line =>
      match take_while1
          (fun c => !(c == '\x7b' || c == ' ' || c == '\t' ||
            c == '\r' || c == '\n')) line with
      | .error p => .error p
      | .failure p => .failure p
      | .ok rem kind =>
        let rem1 := space0 rem
        match
          (if rem1.take 1 = ['\x7b'] then parse_container_params rem1
           else .ok rem1 []) with
        | .error p => .error p
        | .failure p => .failure p
        | .ok rem2 params =>
          if !(trimChars rem2).isEmpty then .error i2
          else
            let kind_trimmed := trimChars kind
            let nested_state : MarkdownParserState :=
              ⟨state.nested.containers ++ [kind_trimmed]⟩
            match containerBody i2 with
            | .error p => .error p
            | .failure p => .failure p
            | .ok i3 chars =>
              match innerBlocks nested_state chars with
              | .error _ => .error i2
              | .failure _ => .failure i2
              | .ok _ blocks =>
                match line_ending i3 with
                | .error p => .error p
                | .failure p => .failure p
                | .ok i4 _ => .ok i4 (Block.container kind_trimmed params blocks)

/-- A trivial inner block parse used to instantiate `container`'s
    `innerBlocks` parameter in concrete evaluations whose outcome is
    decided before (or independently of) the body parse. -/
def innerBlocksStub : MarkdownParserState → List Char → PResult (List Block) :=
  fun _ s => .ok s []

/-- `delimited(char('"'), take_until("\""), char('"'))` of the image
    attribute value: a possibly-empty quoted text; errors when the
    closing quote is absent (`take_until` finds no `"`). -/
def quotedTakeUntil (input : List Char) : PResult (List Char) :=
  match input with
  | '"' :: rest =>
    let content := rest.takeWhile (fun c => c != '"')
    (match rest.drop content.length with
     | '"' :: r2 => .ok r2 content
     | _ => .error rest)
  | _ => .error input

/-- `image.rs`'s `key_value_parser` (named `image_key_value` here):
    whitespace, an `alpha1` key, `=` surrounded by whitespace, then a
    quoted value or a bare `take_while1(!whitespace && != '}')` token. -/
def image_key_value (input : List Char) :
    PResult (List Char × List Char) :=
  match take_while1 Char.isAlpha (multispace0 input) with
  | .error p => .error p
  | .failure p => .failure p
  | .ok r1 k =>
    match charP '=' (multispace0 r1) with
    | .error p => .error p
    | .failure p => .failure p
    | .ok r3 _ =>
      let r4 := multispace0 r3
      match quotedTakeUntil r4 with
      | .ok r5 v => .ok r5 (k, v)
      | .failure p => .failure p
      | .error _ =>
        match take_while1 (fun c => !c.isWhitespace && c != '\x7d') r4 with
        | .ok r5 v => .ok r5 (k, v)
        | .error p => .error p
        | .failure p => .failure p

/-- `image.rs`'s `attributes_parser` (named `image_attributes` here):
    `{ key=value ... }` folded into `ImageAttributes` (only `width` and
    `height` keys are kept). -/
def image_attributes (input : List Char) : PResult ImageAttributes :=
  match charP '\x7b' (multispace0 input) with
  | .error p => .error p
  | .failure p => .failure p
  | .ok r1 _ =>
    let r2 := multispace0 r1
    match separated_list0 multispace1 image_key_value (r2.length + 1) r2 with
    | .error p => .error p
    | .failure p => .failure p
    | .ok r3 kvs =>
      match charP '\x7d' (multispace0 r3) with
      | .error p => .error p
      | .failure p => .failure p
      | .ok r5 _ =>
        .ok r5 (kvs.foldl
          (fun attrs kv =>
            if kv.1 = "width".data then { attrs with width := some kv.2 }
            else if kv.1 = "height".data then { attrs with height := some kv.2 }
            else attrs)
          { width := none, height := none })

mutual
theorem walkTransformInline_id : (i : Inline) → walkTransformInline i = i
  | .emphasis inlines => by
      rw [walkTransformInline, transformInlineList_id inlines]
  | .strong inlines => by
      rw [walkTransformInline, transformInlineList_id inlines]
  | .strikethrough inlines => by
      rw [walkTransformInline, transformInlineList_id inlines]
  | .link destination title children => by
      rw [walkTransformInline, transformInlineList_id children]
  | .linkReference label text => by
      rw [walkTransformInline, transformInlineList_id label,
        transformInlineList_id text]
  | .image destination title alt attr => by rw [walkTransformInline]
  | .text t => by rw [walkTransformInline]
  | .lineBreak => by rw [walkTransformInline]
  | .code c => by rw [walkTransformInline]
  | .latex c => by rw [walkTransformInline]
  | .html c => by rw [walkTransformInline]
  | .autolink u => by rw [walkTransformInline]
  | .footnoteReference l => by rw [walkTransformInline]
  | .empty => by rw [walkTransformInline]

theorem transformInlineList_id : (l : List Inline) → transformInlineList l = l
  | [] => by rw [transformInlineList]
  | i :: rest => by
      rw [transformInlineList, walkTransformInline_id i,
        transformInlineList_id rest]
end

theorem walkTransformTableCell_id (cell : TableCell) :
    walkTransformTableCell cell = cell := by
  simp [walkTransformTableCell, transformInlineList_id]

theorem walkTransformTableRow_id (row : TableRow) :
    walkTransformTableRow row = row := by
  unfold walkTransformTableRow
  induction row with
  | nil => rfl
  | cons cell rest ih => simp [walkTransformTableCell_id, ih]

theorem map_walkTransformTableRow_id (rows : List TableRow) :
    rows.map walkTransformTableRow = rows := by
  induction rows with
  | nil => rfl
  | cons row rest ih => simp [walkTransformTableRow_id, ih]

theorem walkTransformHeading_id (heading : Heading) :
    walkTransformHeading heading = heading := by
  simp [walkTransformHeading, transformInlineList_id]

mutual
theorem walkTransformBlock_id : (b : Block) → walkTransformBlock b = b
  | .container kind params blocks => by
      rw [walkTransformBlock, transformBlockList_id blocks]
  | .paragraph inlines => by
      rw [walkTransformBlock, transformInlineList_id inlines]
  | .heading heading => by
      rw [walkTransformBlock, walkTransformHeading_id heading]
  | .blockQuote blocks => by
      rw [walkTransformBlock, transformBlockList_id blocks]
  | .list kind items => by
      rw [walkTransformBlock, transformListItemList_id items]
  | .table t => by
      rw [walkTransformBlock, map_walkTransformTableRow_id]
  | .footnoteDefinition label blocks => by
      rw [walkTransformBlock, transformBlockList_id blocks]
  | .githubAlert alertType blocks => by
      rw [walkTransformBlock, transformBlockList_id blocks]
  | .definition d => by
      simp [walkTransformBlock, transformInlineList_id]
  | .codeBlock codeBlock => by
      rw [walkTransformBlock, walkTransformCodeBlock]
  | .thematicBreak => by rw [walkTransformBlock]
  | .htmlBlock c => by rw [walkTransformBlock]
  | .latexBlock c => by rw [walkTransformBlock]
  | .empty => by rw [walkTransformBlock]
  | .macroBlock c => by rw [walkTransformBlock]

theorem walkTransformListItem_id : (item : ListItem) →
    walkTransformListItem item = item
  | .mk task blocks => by
      rw [walkTransformListItem, transformBlockList_id blocks]

theorem transformBlockList_id : (l : List Block) → transformBlockList l = l
  | [] => by rw [transformBlockList]
  | b :: rest => by
      rw [transformBlockList, walkTransformBlock_id b,
        transformBlockList_id rest]

theorem transformListItemList_id : (l : List ListItem) →
    transformListItemList l = l
  | [] => by rw [transformListItemList]
  | item :: rest => by
      rw [transformListItemList, walkTransformListItem_id item,
        transformListItemList_id rest]
end

/-! ## Claim C2: the container re-entrancy guard -/

/-- C2: whenever the parser state's container stack is non-empty, the
    custom-container block recognizer fails immediately with a
    recoverable error (nom `Err::Error`) carrying the untouched input
    position — it consumes nothing, so a nested `:::kind` occurrence
    inside a container never produces a `Container` block and falls back
    to ordinary content handling, for every inner block parser, state and
    input. -/
theorem container_reentrancy_guard
    (innerBlocks : MarkdownParserState → List Char → PResult (List Block))
    (state : MarkdownParserState) (input : List Char)
    (h : state.containers ≠ []) :
    container innerBlocks state input = .error input := by
  have hne : state.containers.isEmpty = false := by
    cases hc : state.containers with
    | nil => exact absurd hc h
    | cons a b => rfl
  unfold container
  rw [hne]
  rfl

/-- Witness for C2 at a concrete state (stack holding `"note"`) and a
    concrete nested `:::tip` input. -/
theorem container_reentrancy_guard_witness :
    (⟨["note".data]⟩ : MarkdownParserState).containers ≠ [] ∧
    container innerBlocksStub ⟨["note".data]⟩ ":::tip\n".data =
      .error ":::tip\n".data :=
  ⟨by decide,
   container_reentrancy_guard innerBlocksStub ⟨["note".data]⟩
     ":::tip\n".data (by decide)⟩

/-! ## Claim C3: the identity transformer -/

/-- C3: applying a `Transformer` that overrides none of the trait's
    default methods via `transform_document` (whose default body is
    `walk_transform_document`) returns a document structurally equal to
    the input, for every node kind — containers, tables, lists, link
    references and all inline kinds included. -/
theorem identity_transformer_is_identity (doc : Document) :
    walkTransformDocument doc = doc := by
  cases doc with
  | mk blocks => simp [walkTransformDocument, transformBlockList_id]

/-! ## Claim C4: the visitor default walk and `Block::Container` -/

/-- C4 (bug evaluation): `Visitor::walk_block` has no arm for
    `Block::Container`, so the default walk never reaches the blocks
    nested inside a container: the text-collecting visitor of the
    module's documentation observes nothing in a document whose only
    content is a paragraph inside a container, while it does observe the
    same paragraph at top level. -/
theorem visitor_walk_misses_container_content :
    collectTextsDocument
      ⟨[Block.container "note".data []
        [Block.paragraph [Inline.text "x".data]]]⟩ = [] ∧
    collectTextsDocument
      ⟨[Block.paragraph [Inline.text "x".data]]⟩ = ["x".data] := by
  exact ⟨rfl, rfl⟩

/-! ## Claim C1: recoverability of malformed container constructs -/

/-- C1 (counterexample): a container opening line whose `{key=value}`
    params block has a key followed by `=` but no parseable value does
    NOT cause a mere recoverable recognizer failure: `cut(parse_value)`
    raises nom's fatal `Err::Failure`, which recognizer fallback (`alt`)
    does not recover from. -/
theorem container_params_fatal_counterexample :
    (container innerBlocksStub ⟨[]⟩
      ":::note\x7bkey=\x7d\n".data).isFailure = true := by
  decide

/-- C1 (amended): malformed container constructs are recoverable
    recognizer errors — e.g. non-whitespace trailing content after the
    params block yields `Err::Error` — except a params block whose key is
    followed by `=` and an unparseable value: there `cut` raises a fatal
    `Err::Failure` that aborts recognizer fallback, whatever follows the
    construct and whatever the inner block parser is. -/
theorem container_malformed_params_amended :
    (∀ rest : List Char,
      parse_key_value_pair ("key=".data ++ '\x7d' :: rest) =
        .failure ('\x7d' :: rest)) ∧
    (∀ (innerBlocks : MarkdownParserState → List Char → PResult (List Block))
        (rest : List Char),
      (container innerBlocks ⟨[]⟩
        (":::note\x7bkey=\x7d\n".data ++ rest)).isFailure = true) ∧
    (∀ (innerBlocks : MarkdownParserState → List Char → PResult (List Block))
        (rest : List Char),
      (container innerBlocks ⟨[]⟩
        (":::note\x7ba=b\x7d x\n".data ++ rest)).isError = true) :=
  ⟨fun _ => rfl, fun _ _ => rfl, fun _ _ => rfl⟩

/-! ## Claim C7: what terminates a container body -/

/-- C7 (counterexample): a body line whose text merely ends with `:::`
    DOES terminate the container body: the `many_till` terminator scan
    stops at the first `:::` preceded by up to three spaces anywhere in
    the text, so on `"Hello :::\n:::\n"` the collected body is
    `"Hello"` — not `"Hello :::\n"` as it would be if only a standalone
    `:::` line (the second line) could terminate.  Consequently the
    whole recognizer accepts `":::note\nHello :::\n"` as a complete
    container. -/
theorem container_body_mid_line_fence_counterexample :
    containerBody "Hello :::\n:::\n".data = .ok "\n:::\n".data "Hello".data ∧
    "Hello".data ≠ "Hello :::\n".data ∧
    container innerBlocksStub ⟨[]⟩ ":::note\nHello :::\n".data =
      .ok [] (Block.container "note".data [] []) :=
  ⟨by decide, by decide, rfl⟩

theorem closingFence_cons_of_ne (c : Char) (s : List Char)
    (hc : c ≠ ':') (hs : c ≠ ' ') :
    closingFence (c :: s) = .error (c :: s) := by
  unfold closingFence tagP
  have h1 : (c :: s).takeWhile (fun x => x == ' ') = [] := by
    rw [List.takeWhile_cons]
    simp [hs]
  rw [h1]
  simp only [List.length_nil, Nat.min_zero, List.drop_zero]
  have h2 : (c :: s).take ":::".data.length ≠ ":::".data := by
    show (c :: s).take 3 ≠ [':', ':', ':']
    rw [List.take_succ_cons]
    intro h
    rw [List.cons.injEq] at h
    exact hc h.1
  rw [if_neg h2]

/-- C7 (amended): the container body scan stops at the *first* position
    where up to three spaces followed by `:::` match — anywhere in the
    body text, not only on a standalone line: for every colon-free,
    space-free text `pre`, the body `pre ++ " :::" ++ post` terminates
    right there, with body `pre` and the scan resuming at `post` (where
    the recognizer then requires a line ending). -/
theorem container_body_terminates_at_first_fence
    (pre post : List Char)
    (h : ∀ c ∈ pre, c ≠ ':' ∧ c ≠ ' ') :
    containerBody (pre ++ ' ' :: ':' :: ':' :: ':' :: post) = .ok post pre := by
  induction pre with
  | nil => rfl
  | cons c pre' ih =>
    have hc := h c (List.mem_cons_self c pre')
    have hfence :
        closingFence (c :: (pre' ++ ' ' :: ':' :: ':' :: ':' :: post)) =
          .error (c :: (pre' ++ ' ' :: ':' :: ':' :: ':' :: post)) :=
      closingFence_cons_of_ne c _ hc.1 hc.2
    rw [List.cons_append, containerBody, hfence,
      ih (fun x hx => h x (List.mem_cons_of_mem c hx))]

/-- Witness for C7 (amended) at the body `"Hello :::\n"`. -/
theorem container_body_terminates_at_first_fence_witness :
    (∀ c ∈ "Hello".data, c ≠ ':' ∧ c ≠ ' ') ∧
    containerBody ("Hello".data ++ ' ' :: ':' :: ':' :: ':' :: "\n".data) =
      .ok "\n".data "Hello".data :=
  ⟨by decide,
   container_body_terminates_at_first_fence "Hello".data "\n".data
     (by decide)⟩

/-! ## Claim C8: the image attribute value token -/

/-- C8 (counterexample): the unquoted image-attribute value recognizer is
    not restricted to alphanumerics, `-` and `_`: `width=100%` IS
    accepted as a bare token (`%` is neither alphanumeric nor `-`/`_`). -/
theorem image_unquoted_value_counterexample :
    image_key_value "width=100%\x7d".data =
      .ok ['\x7d'] ("width".data, "100%".data) ∧
    '%' ∈ "100%".data ∧
    ('%'.isAlphanum || '%' == '-' || '%' == '_') = false := by
  exact ⟨by decide, by decide, by decide⟩

/-- C8 (amended): in an image's `{key=value ...}` attribute block an
    accepted value is either a double-quoted string or a bare token
    consisting of one or more characters that are neither whitespace nor
    `\x7d` — exactly the `take_while1(!whitespace && != closing brace)`
    character set, which accepts e.g. `width=100%`. -/
theorem image_unquoted_value_charset_amended :
    (∀ input rest v : List Char,
      take_while1 (fun c => !c.isWhitespace && c != '\x7d') input =
        .ok rest v →
      v ≠ [] ∧ (∀ c ∈ v, ¬c.isWhitespace ∧ c ≠ '\x7d') ∧ input = v ++ rest) ∧
    (∀ rest : List Char,
      image_key_value ("width=100%".data ++ '\x7d' :: rest) =
        .ok ('\x7d' :: rest) ("width".data, "100%".data)) := by
  constructor
  · intro input rest v h
    unfold take_while1 at h
    simp only at h
    split at h
    · exact absurd h (by simp)
    · rw [PResult.ok.injEq] at h
      obtain ⟨hrest, hv⟩ := h
      subst hv
      subst hrest
      rename_i hemp
      refine ⟨by simpa using hemp, ?_, ?_⟩
      · intro c hcv
        have hc := List.mem_takeWhile_imp hcv
        simp only [Bool.and_eq_true, Bool.not_eq_true', bne_iff_ne] at hc
        exact ⟨by simp [hc.1], hc.2⟩
      · obtain ⟨t, ht⟩ :=
          List.takeWhile_prefix (l := input)
            (p := fun c => !c.isWhitespace && c != '\x7d')
        have hdrop :=
          List.drop_left
            (List.takeWhile (fun c => !c.isWhitespace && c != '\x7d') input) t
        rw [ht] at hdrop
        rw [hdrop]
        exact ht.symm
  · intro rest
    rfl

/-- Witness for C8 (amended) at the bare token `100%`. -/
theorem image_unquoted_value_charset_witness :
    take_while1 (fun c => !c.isWhitespace && c != '\x7d') "100%\x7d".data =
      .ok ['\x7d'] "100%".data ∧
    ("100%".data ≠ [] ∧
      (∀ c ∈ "100%".data, ¬c.isWhitespace ∧ c ≠ '\x7d') ∧
      "100%\x7d".data = "100%".data ++ ['\x7d']) :=
  ⟨by decide,
   image_unquoted_value_charset_amended.1 "100%\x7d".data ['\x7d']
     "100%".data (by decide)⟩

/-! ## Claim C9: rendering of `removed_by_extended_table` cells -/

/-- C9 (counterexample): `render_table_row` does NOT skip cells marked
    `removed_by_extended_table`: in a row whose second cell carries the
    marker, the rendered row still contains the removed cell's (empty)
    output and its `" & "` column separator — the output differs from
    the rendering of the row with the removed cell skipped, which is
    what the claim prescribes. -/
theorem render_table_row_no_skip_counterexample :
    (render_table_row ⟨[], []⟩
      [⟨[Inline.text "A".data], 2, 1, false⟩, ⟨[], 1, 1, true⟩]).flat =
      "A &  \\\\".data ∧
    (render_table_row ⟨[], []⟩
      (([⟨[Inline.text "A".data], 2, 1, false⟩,
        (⟨[], 1, 1, true⟩ : TableCell)] : TableRow).filter
        fun c => !c.removed_by_extended_table)).flat = "A \\\\".data ∧
    "A &  \\\\".data ≠ "A \\\\".data := by
  exact ⟨by decide, by decide, by decide⟩

theorem render_row_foldl_flat (st : State) (cells : List TableCell) :
    ∀ acc : Doc,
      ((cells.foldl
        (fun (a : Doc × Bool) cell =>
          let a0 := if a.2 then a.1 else a.1.append (Doc.text " & ".data)
          (a0.append (cellToDoc st cell), false)) (acc, false)).1).flat =
        acc.flat ++
          (cells.map fun c => " & ".data ++ (cellToDoc st c).flat).flatten := by
  induction cells with
  | nil => intro acc; simp
  | cons c rest ih =>
    intro acc
    rw [List.foldl_cons]
    simp only [List.map_cons, List.flatten]
    rw [ih]
    simp [Doc.flat, List.append_assoc]

theorem joinSep_cons_eq (sep : List Char) (xs : List (List Char)) :
    ∀ x, joinSep sep (x :: xs) = x ++ (xs.map fun y => sep ++ y).flatten := by
  induction xs with
  | nil => intro x; simp [joinSep]
  | cons y ys ih =>
    intro x
    rw [joinSep, ih y] <;> simp [List.append_assoc]

/-- C9 (amended): `render_table_row` renders every cell of the row in
    order — `removed_by_extended_table` cells included — separated by
    `" & "` between consecutive cells and terminated by `" \\"`; no cell
    is skipped. -/
theorem render_table_row_renders_every_cell (st : State) (row : TableRow) :
    (render_table_row st row).flat =
      joinSep " & ".data (row.map fun cell => (cellToDoc st cell).flat) ++
        " \\\\".data := by
  cases row with
  | nil => rfl
  | cons c rest =>
    unfold render_table_row
    rw [List.foldl_cons]
    simp only [Doc.flat]
    rw [render_row_foldl_flat st rest]
    rw [List.map_cons, joinSep_cons_eq]
    simp only [List.map_map]
    rfl

/-! ## Claim C6: fallback rendering of unresolved references -/

/-- C6: rendering an `Inline::LinkReference` (resp.
    `Inline::FootnoteReference`) whose label is absent from the
    deferred-resolution index produces the literal fallback form —
    `[text][label]` resp. `[^label]` — rather than failing, and that
    output is distinguishable from the rendering through any state that
    does resolve the label (an `\href{url}{text}` command resp. a
    `\footnotemark[idx]` command, both starting with a backslash). -/
theorem unresolved_reference_fallback
    (st st' : State) (label text : List Inline) (flabel : List Char)
    (d : LinkDefinition) (idx : Nat)
    (h1 : st.get_link_definition label = none)
    (h2 : st.get_footnote_index flabel = none)
    (h3 : st'.get_link_definition label = some d)
    (h4 : st'.get_footnote_index flabel = some idx) :
    (Inline.to_doc st (.linkReference label text)).flat =
      '[' :: ((inlineListToDoc st text).flat ++ "][".data ++
        (inlineListToDoc st label).flat ++ [']']) ∧
    (Inline.to_doc st (.footnoteReference flabel)).flat =
      '[' :: '^' :: (escape_latex flabel ++ [']']) ∧
    (Inline.to_doc st' (.linkReference label text)).flat =
      '\\' :: ("href\x7b".data ++ escape_latex d.destination ++
        "\x7d\x7b".data ++ (inlineListToDoc st' text).flat ++ ['\x7d']) ∧
    (Inline.to_doc st' (.footnoteReference flabel)).flat =
      '\\' :: ("footnotemark\x7b[".data ++ (Nat.repr idx).data ++
        "]\x7d".data) ∧
    (Inline.to_doc st (.linkReference label text)).flat ≠
      (Inline.to_doc st' (.linkReference label text)).flat ∧
    (Inline.to_doc st (.footnoteReference flabel)).flat ≠
      (Inline.to_doc st' (.footnoteReference flabel)).flat := by
  have hfall : (Inline.to_doc st (.linkReference label text)).flat =
      '[' :: ((inlineListToDoc st text).flat ++ "][".data ++
        (inlineListToDoc st label).flat ++ [']']) := by
    simp only [Inline.to_doc, h1]
    simp [Doc.flat, List.append_assoc]
  have hfoot : (Inline.to_doc st (.footnoteReference flabel)).flat =
      '[' :: '^' :: (escape_latex flabel ++ [']']) := by
    simp only [Inline.to_doc, h2]
    simp [Doc.flat]
  have hres : (Inline.to_doc st' (.linkReference label text)).flat =
      '\\' :: ("href\x7b".data ++ escape_latex d.destination ++
        "\x7d\x7b".data ++ (inlineListToDoc st' text).flat ++ ['\x7d']) := by
    simp only [Inline.to_doc, h3]
    simp [Doc.flat, command, List.append_assoc]
  have hfres : (Inline.to_doc st' (.footnoteReference flabel)).flat =
      '\\' :: ("footnotemark\x7b[".data ++ (Nat.repr idx).data ++
        "]\x7d".data) := by
    simp only [Inline.to_doc, h4]
    simp [Doc.flat, command, List.append_assoc]
  refine ⟨hfall, hfoot, hres, hfres, ?_, ?_⟩
  · rw [hfall, hres]
    intro h
    injection h with h5 _
    exact absurd h5 (by decide)
  · rw [hfoot, hfres]
    intro h
    injection h with h5 _
    exact absurd h5 (by decide)

/-- Concrete witness inputs for C6. -/
def exampleLabel : List Inline := [Inline.text "ex".data]

/-- Concrete reference text for C6. -/
def exampleText : List Inline := [Inline.text "t".data]

/-- Concrete link definition for C6. -/
def exampleDefinition : LinkDefinition :=
  { label := exampleLabel, destination := "u".data, title := none }

/-- A renderer state with empty deferred-resolution maps. -/
def emptyRenderState : State := ⟨[], []⟩

/-- A renderer state resolving both witness labels. -/
def resolvedRenderState : State :=
  ⟨[("n".data, 3)], [(exampleLabel, exampleDefinition)]⟩

/-- Witness for C6 at the concrete labels `ex` / `n`. -/
theorem unresolved_reference_fallback_witness :
    emptyRenderState.get_link_definition exampleLabel = none ∧
    emptyRenderState.get_footnote_index "n".data = none ∧
    resolvedRenderState.get_link_definition exampleLabel =
      some exampleDefinition ∧
    resolvedRenderState.get_footnote_index "n".data = some 3 ∧
    ((Inline.to_doc emptyRenderState
        (.linkReference exampleLabel exampleText)).flat =
      '[' :: ((inlineListToDoc emptyRenderState exampleText).flat ++
        "][".data ++
        (inlineListToDoc emptyRenderState exampleLabel).flat ++ [']']) ∧
    (Inline.to_doc emptyRenderState (.footnoteReference "n".data)).flat =
      '[' :: '^' :: (escape_latex "n".data ++ [']']) ∧
    (Inline.to_doc resolvedRenderState
        (.linkReference exampleLabel exampleText)).flat =
      '\\' :: ("href\x7b".data ++
        escape_latex exampleDefinition.destination ++ "\x7d\x7b".data ++
        (inlineListToDoc resolvedRenderState exampleText).flat ++
        ['\x7d']) ∧
    (Inline.to_doc resolvedRenderState
        (.footnoteReference "n".data)).flat =
      '\\' :: ("footnotemark\x7b[".data ++ (Nat.repr 3).data ++
        "]\x7d".data) ∧
    (Inline.to_doc emptyRenderState
        (.linkReference exampleLabel exampleText)).flat ≠
      (Inline.to_doc resolvedRenderState
        (.linkReference exampleLabel exampleText)).flat ∧
    (Inline.to_doc emptyRenderState
        (.footnoteReference "n".data)).flat ≠
      (Inline.to_doc resolvedRenderState
        (.footnoteReference "n".data)).flat) :=
  ⟨rfl, rfl, rfl, rfl,
   unresolved_reference_fallback emptyRenderState resolvedRenderState
     exampleLabel exampleText "n".data exampleDefinition 3
     rfl rfl rfl rfl⟩

/-! ## Claim C5: the shape of `get_indices` -/

/-- C5 (counterexample): `get_indices` does not walk *all* blocks of the
    document — a footnote definition nested inside a `Block::Container`
    (and likewise anything inside a footnote definition's own body) is
    never reached, so its label is absent from the built footnote map,
    although a walk over all blocks would assign it index 1. -/
theorem get_indices_misses_container_counterexample :
    get_indices
      ⟨[Block.container "note".data []
        [Block.footnoteDefinition "a".data []]]⟩ = ([], []) ∧
    footnoteMapGet
      (get_indices
        ⟨[Block.container "note".data []
          [Block.footnoteDefinition "a".data []]]⟩).1 "a".data = none := by
  constructor <;>
    simp [get_indices, process_blocks, footnoteMapGet]

theorem buildFootnoteMap_append (xs ys : List (List Char)) :
    ∀ (c : Nat) (acc : List (List Char × Nat)),
      buildFootnoteMap (xs ++ ys) c acc =
        buildFootnoteMap ys (c + xs.length) (buildFootnoteMap xs c acc) := by
  induction xs with
  | nil => intro c acc; simp [buildFootnoteMap]
  | cons x xs ih =>
    intro c acc
    rw [List.cons_append, buildFootnoteMap, buildFootnoteMap, ih]
    simp only [List.length_cons]
    congr 1
    omega

theorem buildLinkMap_append (xs ys : List LinkDefinition) :
    ∀ acc : List (List Inline × LinkDefinition),
      buildLinkMap (xs ++ ys) acc = buildLinkMap ys (buildLinkMap xs acc) := by
  induction xs with
  | nil => intro acc; simp [buildLinkMap]
  | cons x xs ih =>
    intro acc
    rw [List.cons_append, buildLinkMap, buildLinkMap, ih]

mutual
theorem process_blocks_spec : (bs : List Block) →
    ∀ (f : List (List Char × Nat))
      (l : List (List Inline × LinkDefinition)) (c : Nat),
    process_blocks bs f l c =
      (buildFootnoteMap (specFootnoteLabels bs) c f,
       buildLinkMap (specLinkDefs bs) l,
       c + (specFootnoteLabels bs).length)
  | [] => by
      intro f l c
      simp [process_blocks, specFootnoteLabels, specLinkDefs,
        buildFootnoteMap, buildLinkMap]
  | .footnoteDefinition label blocks :: rest => by
      intro f l c
      rw [process_blocks, specFootnoteLabels, specLinkDefs,
        buildFootnoteMap, process_blocks_spec rest]
      simp [Nat.add_assoc, Nat.add_comm, Nat.add_left_comm]
  | .definition d :: rest => by
      intro f l c
      rw [process_blocks, specFootnoteLabels, specLinkDefs,
        buildLinkMap, process_blocks_spec rest]
  | .list kind items :: rest => by
      intro f l c
      rw [process_blocks, process_items_spec items f l c]
      simp only [process_blocks_spec rest, specFootnoteLabels, specLinkDefs,
        buildFootnoteMap_append, buildLinkMap_append, List.length_append]
      simp [Nat.add_assoc, Nat.add_comm, Nat.add_left_comm]
  | .blockQuote blocks :: rest => by
      intro f l c
      rw [process_blocks, process_blocks_spec blocks f l c]
      simp only [process_blocks_spec rest, specFootnoteLabels, specLinkDefs,
        buildFootnoteMap_append, buildLinkMap_append, List.length_append]
      simp [Nat.add_assoc, Nat.add_comm, Nat.add_left_comm]
  | .githubAlert alertType blocks :: rest => by
      intro f l c
      rw [process_blocks, process_blocks_spec blocks f l c]
      simp only [process_blocks_spec rest, specFootnoteLabels, specLinkDefs,
        buildFootnoteMap_append, buildLinkMap_append, List.length_append]
      simp [Nat.add_assoc, Nat.add_comm, Nat.add_left_comm]
  | .paragraph x :: rest => by
      intro f l c
      rw [process_blocks, specFootnoteLabels, specLinkDefs,
        process_blocks_spec rest]
  | .heading x :: rest => by
      intro f l c
      rw [process_blocks, specFootnoteLabels, specLinkDefs,
        process_blocks_spec rest]
  | .thematicBreak :: rest => by
      intro f l c
      rw [process_blocks, specFootnoteLabels, specLinkDefs,
        process_blocks_spec rest]
  | .codeBlock x :: rest => by
      intro f l c
      rw [process_blocks, specFootnoteLabels, specLinkDefs,
        process_blocks_spec rest]
  | .htmlBlock x :: rest => by
      intro f l c
      rw [process_blocks, specFootnoteLabels, specLinkDefs,
        process_blocks_spec rest]
  | .table x :: rest => by
      intro f l c
      rw [process_blocks, specFootnoteLabels, specLinkDefs,
        process_blocks_spec rest]
  | .latexBlock x :: rest => by
      intro f l c
      rw [process_blocks, specFootnoteLabels, specLinkDefs,
        process_blocks_spec rest]
  | .empty :: rest => by
      intro f l c
      rw [process_blocks, specFootnoteLabels, specLinkDefs,
        process_blocks_spec rest]
  | .container kind params blocks :: rest => by
      intro f l c
      rw [process_blocks, specFootnoteLabels, specLinkDefs,
        process_blocks_spec rest]
  | .macroBlock x :: rest => by
      intro f l c
      rw [process_blocks, specFootnoteLabels, specLinkDefs,
        process_blocks_spec rest]

theorem process_items_spec : (items : List ListItem) →
    ∀ (f : List (List Char × Nat))
      (l : List (List Inline × LinkDefinition)) (c : Nat),
    process_items items f l c =
      (buildFootnoteMap (specFootnoteLabelsItems items) c f,
       buildLinkMap (specLinkDefsItems items) l,
       c + (specFootnoteLabelsItems items).length)
  | [] => by
      intro f l c
      simp [process_items, specFootnoteLabelsItems, specLinkDefsItems,
        buildFootnoteMap, buildLinkMap]
  | .mk task blocks :: rest => by
      intro f l c
      rw [process_items, process_blocks_spec blocks f l c]
      simp only [process_items_spec rest, specFootnoteLabelsItems,
        specLinkDefsItems, buildFootnoteMap_append, buildLinkMap_append,
        List.length_append]
      simp [Nat.add_assoc, Nat.add_comm, Nat.add_left_comm]
end

/-- C5 (amended): `get_indices` performs a single recursive pre-order
    walk that recurses into list items, block-quote bodies and
    GitHub-alert bodies (it does not enter container bodies or the
    bodies of footnote definitions), and returns (a) the footnote map
    obtained by inserting the k-th footnote definition encountered in
    walk order with 1-based index k, keyed by its label string (a later
    binding for the same label shadows an earlier one, like
    `HashMap::insert`), and (b) the link-definition map keyed by the
    definition's raw label inline sequence, compared structurally,
    mapping to the full `LinkDefinition`. -/
theorem get_indices_characterization (doc : Document) :
    get_indices doc =
      (buildFootnoteMap (specFootnoteLabels doc.blocks) 1 [],
       buildLinkMap (specLinkDefs doc.blocks) []) := by
  unfold get_indices
  rw [process_blocks_spec doc.blocks [] [] 1]

/-! ## Claim C10: the generic-AST round trip -/

mutual
theorem inline_withData_stripData {T : Type} [Inhabited T] :
    (i : Inline) → ∀ d : T,
    generic.Inline.stripData (Inline.withData i d) = i
  | .text content => by
      intro d
      rw [Inline.withData, generic.Inline.stripData]
  | .lineBreak => by
      intro d
      rw [Inline.withData, generic.Inline.stripData]
  | .code content => by
      intro d
      rw [Inline.withData, generic.Inline.stripData]
  | .latex content => by
      intro d
      rw [Inline.withData, generic.Inline.stripData]
  | .html content => by
      intro d
      rw [Inline.withData, generic.Inline.stripData]
  | .link destination title children => by
      intro d
      rw [Inline.withData, generic.Inline.stripData,
        inlineList_withData_stripData children]
  | .linkReference label text => by
      intro d
      rw [Inline.withData, generic.Inline.stripData,
        inlineList_withData_stripData label,
        inlineList_withData_stripData text]
  | .image destination title alt attr => by
      intro d
      rw [Inline.withData, generic.Inline.stripData]
      cases attr with
      | none => rfl
      | some a => rfl
  | .emphasis content => by
      intro d
      rw [Inline.withData, generic.Inline.stripData,
        inlineList_withData_stripData content]
  | .strong content => by
      intro d
      rw [Inline.withData, generic.Inline.stripData,
        inlineList_withData_stripData content]
  | .strikethrough content => by
      intro d
      rw [Inline.withData, generic.Inline.stripData,
        inlineList_withData_stripData content]
  | .autolink url => by
      intro d
      rw [Inline.withData, generic.Inline.stripData]
  | .footnoteReference label => by
      intro d
      rw [Inline.withData, generic.Inline.stripData]
  | .empty => by
      intro d
      rw [Inline.withData, generic.Inline.stripData]

theorem inlineList_withData_stripData {T : Type} [Inhabited T] :
    (l : List Inline) →
    generic.inlineListStripData (inlineListWithDefaultData (T := T) l) = l
  | [] => by
      rw [inlineListWithDefaultData, generic.inlineListStripData]
  | i :: rest => by
      rw [inlineListWithDefaultData, generic.inlineListStripData,
        inline_withData_stripData i, inlineList_withData_stripData rest]
end

theorem heading_withData_stripData {T : Type} [Inhabited T]
    (h : Heading) (d : T) :
    generic.Heading.stripData (Heading.withData h d) = h := by
  cases h with
  | mk kind content =>
    simp [Heading.withData, generic.Heading.stripData,
      inlineList_withData_stripData]

theorem codeBlock_withData_stripData {T : Type} (cb : CodeBlock) (d : T) :
    generic.CodeBlock.stripData (CodeBlock.withData cb d) = cb := by
  cases cb with
  | mk kind literal => simp [CodeBlock.withData, generic.CodeBlock.stripData]

theorem linkDefinition_withData_stripData {T : Type} [Inhabited T]
    (ld : LinkDefinition) (d : T) :
    generic.LinkDefinition.stripData (LinkDefinition.withData ld d) = ld := by
  cases ld with
  | mk label destination title =>
    simp [LinkDefinition.withData, generic.LinkDefinition.stripData,
      inlineList_withData_stripData]

theorem tableCell_withData_stripData {T : Type} [Inhabited T]
    (cell : TableCell) :
    generic.TableCell.stripData (TableCell.withData (T := T) cell) = cell := by
  cases cell with
  | mk content colspan rowspan removed =>
    simp [TableCell.withData, generic.TableCell.stripData,
      inlineList_withData_stripData]

theorem tableRow_withData_stripData {T : Type} [Inhabited T]
    (row : TableRow) :
    (row.map (TableCell.withData (T := T))).map
      generic.TableCell.stripData = row := by
  induction row with
  | nil => rfl
  | cons c rest ih => simp [tableCell_withData_stripData, ih]

theorem tableRows_withData_stripData {T : Type} [Inhabited T]
    (rows : List TableRow) :
    (rows.map fun row => row.map (TableCell.withData (T := T))).map
      (fun row => row.map generic.TableCell.stripData) = rows := by
  induction rows with
  | nil => rfl
  | cons r rest ih =>
    simp only [List.map_cons, tableRow_withData_stripData, ih]

theorem table_withData_stripData {T : Type} [Inhabited T]
    (t : Table) (d : T) :
    generic.Table.stripData (Table.withData t d) = t := by
  cases t with
  | mk rows alignments =>
    simp only [Table.withData, generic.Table.stripData]
    rw [tableRows_withData_stripData]

theorem listKind_roundtrip (kind : ListKind) :
    listKindFromGeneric (listKindToGeneric kind) = kind := by
  cases kind <;> rfl

mutual
theorem block_withData_stripData {T : Type} [Inhabited T] :
    (b : Block) → ∀ d : T, noMacroBlock b = true →
    (Block.withData b d).map generic.Block.stripData = some b
  | .paragraph content => by
      intro d h
      simp [Block.withData, generic.Block.stripData,
        inlineList_withData_stripData]
  | .heading heading => by
      intro d h
      simp [Block.withData, generic.Block.stripData,
        heading_withData_stripData]
  | .thematicBreak => by
      intro d h
      simp [Block.withData, generic.Block.stripData]
  | .blockQuote blocks => by
      intro d h
      have hl := blockList_withData_stripData (T := T) blocks
        (by simpa [noMacroBlock] using h)
      cases hbs : blockListWithDefaultData (T := T) blocks with
      | none => rw [hbs] at hl; simp at hl
      | some gbs =>
        rw [hbs] at hl
        simp only [Option.map_some', Option.some.injEq] at hl
        simp [Block.withData, hbs, generic.Block.stripData, hl]
  | .list kind items => by
      intro d h
      have hl := listItemList_withData_stripData (T := T) items
        (by simpa [noMacroBlock] using h)
      cases hbs : listItemListWithDefaultData (T := T) items with
      | none => rw [hbs] at hl; simp at hl
      | some gis =>
        rw [hbs] at hl
        simp only [Option.map_some', Option.some.injEq] at hl
        simp [Block.withData, hbs, generic.Block.stripData, hl,
          listKind_roundtrip]
  | .codeBlock codeBlock => by
      intro d h
      simp [Block.withData, generic.Block.stripData,
        codeBlock_withData_stripData]
  | .htmlBlock content => by
      intro d h
      simp [Block.withData, generic.Block.stripData]
  | .definition ld => by
      intro d h
      simp [Block.withData, generic.Block.stripData,
        linkDefinition_withData_stripData]
  | .table t => by
      intro d h
      simp [Block.withData, generic.Block.stripData,
        table_withData_stripData]
  | .footnoteDefinition label blocks => by
      intro d h
      have hl := blockList_withData_stripData (T := T) blocks
        (by simpa [noMacroBlock] using h)
      cases hbs : blockListWithDefaultData (T := T) blocks with
      | none => rw [hbs] at hl; simp at hl
      | some gbs =>
        rw [hbs] at hl
        simp only [Option.map_some', Option.some.injEq] at hl
        simp [Block.withData, hbs, generic.Block.stripData, hl]
  | .githubAlert alertType blocks => by
      intro d h
      have hl := blockList_withData_stripData (T := T) blocks
        (by simpa [noMacroBlock] using h)
      cases hbs : blockListWithDefaultData (T := T) blocks with
      | none => rw [hbs] at hl; simp at hl
      | some gbs =>
        rw [hbs] at hl
        simp only [Option.map_some', Option.some.injEq] at hl
        simp [Block.withData, hbs, generic.Block.stripData, hl]
  | .latexBlock content => by
      intro d h
      simp [Block.withData, generic.Block.stripData]
  | .empty => by
      intro d h
      simp [Block.withData, generic.Block.stripData]
  | .container kind params blocks => by
      intro d h
      have hl := blockList_withData_stripData (T := T) blocks
        (by simpa [noMacroBlock] using h)
      cases hbs : blockListWithDefaultData (T := T) blocks with
      | none => rw [hbs] at hl; simp at hl
      | some gbs =>
        rw [hbs] at hl
        simp only [Option.map_some', Option.some.injEq] at hl
        simp [Block.withData, hbs, generic.Block.stripData, hl]
  | .macroBlock content => by
      intro d h
      simp [noMacroBlock] at h

theorem listItem_withData_stripData {T : Type} [Inhabited T] :
    (item : ListItem) → ∀ d : T, noMacroListItem item = true →
    (ListItem.withData item d).map generic.ListItem.stripData = some item
  | .mk task blocks => by
      intro d h
      have hl := blockList_withData_stripData (T := T) blocks
        (by simpa [noMacroListItem] using h)
      cases hbs : blockListWithDefaultData (T := T) blocks with
      | none => rw [hbs] at hl; simp at hl
      | some gbs =>
        rw [hbs] at hl
        simp only [Option.map_some', Option.some.injEq] at hl
        simp [ListItem.withData, hbs, generic.ListItem.stripData, hl]

theorem blockList_withData_stripData {T : Type} [Inhabited T] :
    (l : List Block) → noMacroBlockList l = true →
    (blockListWithDefaultData (T := T) l).map generic.blockListStripData =
      some l
  | [] => by
      intro h
      simp [blockListWithDefaultData, generic.blockListStripData]
  | b :: rest => by
      intro h
      rw [noMacroBlockList, Bool.and_eq_true] at h
      have hb := block_withData_stripData (T := T) b default h.1
      have hr := blockList_withData_stripData (T := T) rest h.2
      cases hbb : Block.withData (T := T) b default with
      | none => rw [hbb] at hb; simp at hb
      | some gb =>
        rw [hbb] at hb
        simp only [Option.map_some', Option.some.injEq] at hb
        cases hrr : blockListWithDefaultData (T := T) rest with
        | none => rw [hrr] at hr; simp at hr
        | some gbs =>
          rw [hrr] at hr
          simp only [Option.map_some', Option.some.injEq] at hr
          simp [blockListWithDefaultData, hbb, hrr,
            generic.blockListStripData, hb, hr]

theorem listItemList_withData_stripData {T : Type} [Inhabited T] :
    (l : List ListItem) → noMacroListItemList l = true →
    (listItemListWithDefaultData (T := T) l).map
      generic.listItemListStripData = some l
  | [] => by
      intro h
      simp [listItemListWithDefaultData, generic.listItemListStripData]
  | item :: rest => by
      intro h
      rw [noMacroListItemList, Bool.and_eq_true] at h
      have hb := listItem_withData_stripData (T := T) item default h.1
      have hr := listItemList_withData_stripData (T := T) rest h.2
      cases hbb : ListItem.withData (T := T) item default with
      | none => rw [hbb] at hb; simp at hb
      | some gi =>
        rw [hbb] at hb
        simp only [Option.map_some', Option.some.injEq] at hb
        cases hrr : listItemListWithDefaultData (T := T) rest with
        | none => rw [hrr] at hr; simp at hr
        | some gis =>
          rw [hrr] at hr
          simp only [Option.map_some', Option.some.injEq] at hr
          simp [listItemListWithDefaultData, hbb, hrr,
            generic.listItemListStripData, hb, hr]
end

/-- C10: for every document in which no `Block::MacroBlock` occurs
    anywhere in the tree, converting to the generic AST with unit user
    data and back is the identity: `from_generic(to_generic(doc))` is
    structurally equal to `doc`.  The precondition is required because
    `with_data` reaches the unimplemented `todo!()` (here: `none`) on the
    `MacroBlock` variant, as the second conjunct shows. -/
theorem to_generic_from_generic_roundtrip :
    (∀ doc : Document, noMacroDocument doc = true →
      (to_generic doc).map from_generic = some doc) ∧
    to_generic ⟨[Block.macroBlock "m".data]⟩ = none := by
  constructor
  · intro doc h
    cases doc with
    | mk blocks =>
      have hl := blockList_withData_stripData (T := Unit) blocks
        (by simpa [noMacroDocument] using h)
      cases hbs : blockListWithDefaultData (T := Unit) blocks with
      | none => rw [hbs] at hl; simp at hl
      | some gbs =>
        rw [hbs] at hl
        simp only [Option.map_some', Option.some.injEq] at hl
        simp [to_generic, from_generic, Document.withData, hbs,
          generic.Document.stripData, hl]
  · simp [to_generic, Document.withData, blockListWithDefaultData,
      Block.withData]

/-- Witness for C10 at a concrete macro-free document. -/
theorem to_generic_from_generic_roundtrip_witness :
    noMacroDocument
      ⟨[Block.paragraph [Inline.text "x".data],
        Block.blockQuote [Block.empty]]⟩ = true ∧
    (to_generic
      ⟨[Block.paragraph [Inline.text "x".data],
        Block.blockQuote [Block.empty]]⟩).map from_generic =
      some
        ⟨[Block.paragraph [Inline.text "x".data],
          Block.blockQuote [Block.empty]]⟩ := by
  refine ⟨?_, to_generic_from_generic_roundtrip.1 _ ?_⟩ <;>
    simp [noMacroDocument, noMacroBlockList, noMacroBlock]

end MarkdownPPP
